import Mathlib

/-!
# cookie-bearer: the request handler of `cookie-bearer.go`

A shallow embedding of `proxyHandler` (lines 134-238 of `cookie-bearer.go`).

* Header maps (`http.Header`, a Go `map[string][]string`) are association
  lists read through `Header.values`; keys are the canonical names net/http
  stores (`Authorization`, `Content-Type`, `Set-Cookie`, ...).
* Header maps that are shared by reference (`r.Header`, `req.Header`) live in
  a `Heap`, so that `Clone` and `Set` have their Go meaning.
* `r.Cookie` parses the Cookie header lines as `readCookies` of net/http does,
  `http.SetCookie` writes the line `(*Cookie).String` builds, and
  `ResolveReference` follows net/url, escaped and decoded path included.
* The calls into the Go standard library whose result the handler only
  inspects (`http.NewRequest` failing, `http.DefaultClient.Do`,
  `mime.ParseMediaType`, `json.Decoder.Decode`) are the fields of `Net`; every
  theorem holds for all of them, and the hypotheses about an upstream answer
  are about what `Do` returns for the request the handler hands it.
* `log.Printf` call sites are recorded as `LogEvent`s, in order.
-/

namespace CookieBearer

/-! ## `http.Header` -/

/-- A Go `http.Header`: the value stored under a key is the first entry with that key. -/
abbrev Header := List (String × List String)

namespace Header

/-- The slice `h[key]` (empty when the key is absent). -/
def values (h : Header) (key : String) : List String :=
  match h.lookup key with
  | some vs => vs
  | none => []

/-- The method `Header.Get`: the first value stored under the key, or the empty string. -/
def Get (h : Header) (key : String) : String :=
  match h.values key with
  | v :: _ => v
  | [] => ""

/-- The method `Header.Del`: `delete(h, key)`. -/
def Del (h : Header) (key : String) : Header :=
  h.filter (fun e => !(e.1 == key))

/-- The method `Header.Set`: `h[key] = []string{value}`. -/
def Set (h : Header) (key value : String) : Header :=
  (key, [value]) :: h.Del key

/-- The method `Header.Add`: `h[key] = append(h[key], value)`. -/
def Add (h : Header) (key value : String) : Header :=
  (key, h.values key ++ [value]) :: h.Del key

/-- The method `Header.Clone`: a copy that shares nothing with `h`. -/
def Clone (h : Header) : Header := h

/-- Entries visited by `for key, values := range h`, each key once, seen keys skipped. -/
def rangeFrom (seen : List String) : Header → List (String × List String)
  | [] => []
  | (k, vs) :: rest =>
    if k ∈ seen then rangeFrom seen rest else (k, vs) :: rangeFrom (k :: seen) rest

/-- Entries visited by `for key, values := range h`. -/
def range (h : Header) : List (String × List String) := rangeFrom [] h

end Header

/-! ## Heap of header maps -/

/-- Header maps allocated so far; a reference is an index. -/
abbrev Heap := List Header

namespace Heap

/-- Dereference a header map. -/
def read (m : Heap) (p : Nat) : Header := m.getD p []

/-- Update the header map behind a reference in place. -/
def write (m : Heap) (p : Nat) (h : Header) : Heap := m.set p h

/-- Allocate a new header map and return its reference. -/
def alloc (m : Heap) (h : Header) : Heap × Nat := (m ++ [h], m.length)

end Heap

/-! ## String helpers -/

/-- The byte test `isASCIISpace` of net/textproto. -/
def isASCIISpace (c : Char) : Bool :=
  c.toNat = 32 || c.toNat = 9 || c.toNat = 10 || c.toNat = 13

/-- Drop leading white space. -/
def trimStart : List Char → List Char
  | [] => []
  | c :: cs => if isASCIISpace c then trimStart cs else c :: cs

/-- The function `textproto.TrimString`: drop leading and trailing ASCII white space. -/
def TrimString (s : List Char) : List Char :=
  (trimStart (trimStart s).reverse).reverse

/-- The function `strings.Cut(s, sep)` for a one-byte separator: the text before and after it. -/
def cutAt (sep : Char) : List Char → List Char × List Char
  | [] => ([], [])
  | c :: cs => if c = sep then ([], cs) else (c :: (cutAt sep cs).1, (cutAt sep cs).2)

/-- The pieces a loop of `strings.Cut(rest, sep)` yields. -/
def splitAtChar (sep : Char) : List Char → List (List Char)
  | [] => [[]]
  | c :: cs =>
    if c = sep then [] :: splitAtChar sep cs
    else
      match splitAtChar sep cs with
      | e :: es => (c :: e) :: es
      | [] => [[c]]

/-! ## `net/url`

A character of a path stands for the byte of its code point. -/

/-- The fields of `url.URL` that `ResolveReference` reads. `Path` is the decoded path and
`RawPath` the encoded path hint, empty when the default encoding of `Path` is meant. -/
structure URL where
  Scheme : String := ""
  Opaque : String := ""
  User : Option String := none
  Host : String := ""
  Path : String := ""
  RawPath : String := ""
  ForceQuery : Bool := false
  RawQuery : String := ""
  Fragment : String := ""
deriving DecidableEq, Repr

/-- The function `shouldEscape(c, encodePath)` of net/url. -/
def shouldEscapePath (c : Char) : Bool :=
  let n := c.toNat
  if (97 ≤ n && n ≤ 122) || (65 ≤ n && n ≤ 90) || (48 ≤ n && n ≤ 57) then false
  else if c = '-' || c = '_' || c = '.' || c = '~' then false
  else if c = '$' || c = '&' || c = '+' || c = ',' || c = '/' || c = ':' || c = ';' ||
      c = '=' || c = '@' then false
  else true

/-- The upper-case hexadecimal digit of a number below 16. -/
def upperHex (n : Nat) : Char :=
  if n < 10 then Char.ofNat (48 + n) else Char.ofNat (55 + n)

/-- The value of a hexadecimal digit (`ishex` and `unhex` of net/url), none for another byte. -/
def unhex (c : Char) : Option Nat :=
  let n := c.toNat
  if 48 ≤ n ∧ n ≤ 57 then some (n - 48)
  else if 97 ≤ n ∧ n ≤ 102 then some (n - 87)
  else if 65 ≤ n ∧ n ≤ 70 then some (n - 55)
  else none

/-- The function `escape(s, encodePath)` of net/url. -/
def escapePath : List Char → List Char
  | [] => []
  | c :: cs =>
    if shouldEscapePath c then
      '%' :: upperHex (c.toNat / 16 % 16) :: upperHex (c.toNat % 16) :: escapePath cs
    else c :: escapePath cs

/-- The function `unescape(s, encodePath)` of net/url: none for a `%` that is not followed by
two hexadecimal digits. -/
def unescapePath : List Char → Option (List Char)
  | [] => some []
  | [c] => if c = '%' then none else some [c]
  | [c, d] => if c = '%' then none else (unescapePath [d]).map (fun t => c :: t)
  | c :: a :: b :: rest =>
    if c = '%' then
      match unhex a, unhex b with
      | some x, some y => (unescapePath rest).map (fun t => Char.ofNat (16 * x + y) :: t)
      | _, _ => none
    else (unescapePath (a :: b :: rest)).map (fun t => c :: t)

/-- The function `validEncoded(s, encodePath)` of net/url. -/
def validEncodedPath (s : List Char) : Bool :=
  s.all (fun c =>
    let n := c.toNat
    n = 33 || n = 36 || n = 38 || n = 39 || n = 40 || n = 41 || n = 42 || n = 43 || n = 44 ||
      n = 59 || n = 61 || n = 58 || n = 64 || n = 91 || n = 93 || n = 37 ||
      !shouldEscapePath c)

/-- The method `(*URL).EscapedPath`: `RawPath` when it is a valid encoding of `Path`, else the
default encoding of `Path`. -/
def URL.EscapedPath (u : URL) : String :=
  if u.RawPath ≠ "" ∧ validEncodedPath u.RawPath.data = true ∧
      unescapePath u.RawPath.data = some u.Path.data then u.RawPath
  else if u.Path = "*" then "*"
  else String.mk (escapePath u.Path.data)

/-- The method `(*URL).setPath`: on an encoding error the URL is left as it is. -/
def URL.setPath (u : URL) (p : String) : URL :=
  match unescapePath p.data with
  | none => u
  | some path =>
    { u with Path := String.mk path
             RawPath := if escapePath path = p.data then "" else p }

/-- The text before the last slash, `str[:strings.LastIndexByte(str, '/')]`; none when there
is no slash. -/
def beforeLastSlash : List Char → Option (List Char)
  | [] => none
  | c :: cs =>
    match beforeLastSlash cs with
    | some p => some (c :: p)
    | none => if c = '/' then some [] else none

/-- One round of the element loop of `resolvePath` on the state `(dst, first)`. -/
def resolveStep (st : List Char × Bool) (elem : List Char) : List Char × Bool :=
  if elem = ['.'] then (st.1, false)
  else if elem = ['.', '.'] then
    match beforeLastSlash (st.1.drop 1) with
    | none => (['/'], true)
    | some p => ('/' :: p, st.2)
  else
    ((if st.2 then st.1 else st.1 ++ ['/']) ++ elem, false)

/-- The function `resolvePath` of net/url: `ref` resolved against `base`, dot segments removed. -/
def resolvePath (base ref : String) : String :=
  let full : List Char :=
    match ref.data with
    | [] => base.data
    | c :: _ =>
      if c = '/' then ref.data
      else
        match beforeLastSlash base.data with
        | some p => p ++ ['/'] ++ ref.data
        | none => ref.data
  if full = [] then ""
  else
    let elems := splitAtChar '/' full
    let dst := (elems.foldl resolveStep (['/'], true)).1
    let last := elems.getLastD []
    let dst := if last = ['.'] ∨ last = ['.', '.'] then dst ++ ['/'] else dst
    match dst with
    | a :: b :: rest => if b = '/' then String.mk (b :: rest) else String.mk (a :: b :: rest)
    | short => String.mk short

/-- The method `(*URL).ResolveReference` of net/url (RFC 3986 section 5.2). -/
def URL.ResolveReference (u ref : URL) : URL :=
  let url := ref
  let url := if ref.Scheme = "" then { url with Scheme := u.Scheme } else url
  if ref.Scheme ≠ "" ∨ ref.Host ≠ "" ∨ ref.User ≠ none then
    url.setPath (resolvePath ref.EscapedPath "")
  else if ref.Opaque ≠ "" then
    { url with User := none, Host := "", Path := "" }
  else
    let url :=
      if ref.Path = "" ∧ ref.ForceQuery = false ∧ ref.RawQuery = "" then
        let url := { url with RawQuery := u.RawQuery }
        if ref.Fragment = "" then { url with Fragment := u.Fragment } else url
      else url
    if ref.Path = "" ∧ u.Opaque ≠ "" then
      { url with Opaque := u.Opaque, User := none, Host := "", Path := "" }
    else
      ({ url with Host := u.Host, User := u.User }).setPath
        (resolvePath u.EscapedPath ref.EscapedPath)

/-! ## Cookies -/

/-- The type `http.SameSite`. -/
inductive SameSite where
  | DefaultMode
  | LaxMode
  | StrictMode
  | NoneMode
deriving DecidableEq, Repr

/-- The fields of `http.Cookie` the handler fills; `Expires` is in Unix seconds, none for the
zero time. -/
structure Cookie where
  Name : String
  Value : String
  Path : String := ""
  HttpOnly : Bool := false
  Secure : Bool := false
  SameSite : SameSite := SameSite.DefaultMode
  MaxAge : Int := 0
  Expires : Option Int := none
deriving DecidableEq, Repr

/-! ## Writing a cookie (`(*Cookie).String` of net/http) -/

/-- The token bytes of RFC 7230 (`httpguts.IsTokenRune`), by code point. -/
def isTokenChar (c : Char) : Bool :=
  let n := c.toNat
  n = 33 || (35 ≤ n && n ≤ 39) || n = 42 || n = 43 || n = 45 || n = 46 ||
    (48 ≤ n && n ≤ 57) || (65 ≤ n && n ≤ 90) || (94 ≤ n && n ≤ 122) || n = 124 || n = 126

/-- The function `isCookieNameValid` of net/http: a non-empty token. -/
def isCookieNameValid (name : List Char) : Bool :=
  !name.isEmpty && name.all isTokenChar

/-- The function `validCookieValueByte` of net/http. -/
def validCookieValueByte (c : Char) : Bool :=
  32 ≤ c.toNat && c.toNat < 127 && c.toNat != 34 && c.toNat != 59 && c.toNat != 92

/-- The function `validCookiePathByte` of net/http. -/
def validCookiePathByte (c : Char) : Bool :=
  32 ≤ c.toNat && c.toNat < 127 && c.toNat != 59

/-- The bytes of a token that `sanitizeOrWarn` keeps in a cookie value. -/
def keptValueBytes (v : String) : List Char :=
  v.data.filter validCookieValueByte

/-- The function `sanitizeCookieValue(v, false)` of net/http: invalid bytes are dropped, and
what is left is wrapped in double quotes when it holds a space or a comma. -/
def sanitizeCookieValue (v : String) : String :=
  if keptValueBytes v = [] then ""
  else if (keptValueBytes v).any (fun c => c = ' ' || c = ',') then
    String.mk (Char.ofNat 34 :: keptValueBytes v ++ [Char.ofNat 34])
  else String.mk (keptValueBytes v)

/-- The function `sanitizeCookiePath` of net/http. -/
def sanitizeCookiePath (v : String) : String :=
  String.mk (v.data.filter validCookiePathByte)

/-- Decimal digits of a number, most significant first. -/
def decimalDigits : Nat → Nat → List Char → List Char
  | 0, _, acc => acc
  | fuel + 1, n, acc =>
    if n < 10 then Char.ofNat (48 + n) :: acc
    else decimalDigits fuel (n / 10) (Char.ofNat (48 + n % 10) :: acc)

/-- The decimal text of a natural number (`strconv.AppendInt(_, n, 10)` for `n ≥ 0`). -/
def decimal (n : Nat) : String := String.mk (decimalDigits (n + 1) n [])

/-- The decimal text of a number padded with zeros to at least `width` digits. -/
def padded (width n : Nat) : String :=
  String.mk (List.replicate (width - (decimal n).length) '0') ++ decimal n

/-- The UTC calendar date `(year, month, day)` of a day number counted from 1970-01-01. -/
def civilFromDays (days : Int) : Int × Int × Int :=
  let z := days + 719468
  let era := z / 146097
  let doe := z - era * 146097
  let yoe := (doe - doe / 1460 + doe / 36524 - doe / 146096) / 365
  let doy := doe - (365 * yoe + yoe / 4 - yoe / 100)
  let mp := (5 * doy + 2) / 153
  let d := doy - (153 * mp + 2) / 5 + 1
  let mo := if mp < 10 then mp + 3 else mp - 9
  let y := yoe + era * 400
  (if mo ≤ 2 then y + 1 else y, mo, d)

/-- The test `validCookieExpires`: the year is 1601 or later (read in UTC). -/
def validCookieExpires (sec : Int) : Bool :=
  decide (1601 ≤ (civilFromDays (sec / 86400)).1)

/-- The text of `t.UTC().Format(http.TimeFormat)` for a time given in Unix seconds, year 0 or
later. -/
def formatTime (sec : Int) : String :=
  let days := sec / 86400
  let rem := (sec % 86400).toNat
  let ymd := civilFromDays days
  let wd := ["Sun", "Mon", "Tue", "Wed", "Thu", "Fri", "Sat"].getD ((days + 4) % 7).toNat ""
  let mon := ["Jan", "Feb", "Mar", "Apr", "May", "Jun", "Jul", "Aug", "Sep", "Oct", "Nov",
    "Dec"].getD (ymd.2.1.toNat - 1) ""
  wd ++ ", " ++ padded 2 ymd.2.2.toNat ++ " " ++ mon ++ " " ++ padded 4 ymd.1.toNat ++ " " ++
    padded 2 (rem / 3600) ++ ":" ++ padded 2 (rem / 60 % 60) ++ ":" ++ padded 2 (rem % 60) ++
    " GMT"

/-- The Max-Age attribute `Cookie.String` writes for a `MaxAge` field. -/
def maxAgeAttr (maxAge : Int) : String :=
  if 0 < maxAge then "; Max-Age=" ++ decimal maxAge.toNat
  else if maxAge < 0 then "; Max-Age=0"
  else ""

/-- The Expires attribute `Cookie.String` writes for an `Expires` field. -/
def expiresAttr : Option Int → String
  | some sec => if validCookieExpires sec then "; Expires=" ++ formatTime sec else ""
  | none => ""

/-- The SameSite attribute `Cookie.String` writes. -/
def sameSiteAttr : SameSite → String
  | SameSite.DefaultMode => ""
  | SameSite.NoneMode => "; SameSite=None"
  | SameSite.LaxMode => "; SameSite=Lax"
  | SameSite.StrictMode => "; SameSite=Strict"

/-- The method `(*Cookie).String`: the Set-Cookie line, empty for an invalid cookie name. -/
def Cookie.String (c : Cookie) : String :=
  if isCookieNameValid c.Name.data = false then ""
  else
    c.Name ++ "=" ++ sanitizeCookieValue c.Value ++
      (if c.Path.length > 0 then "; Path=" ++ sanitizeCookiePath c.Path else "") ++
      expiresAttr c.Expires ++ maxAgeAttr c.MaxAge ++
      (if c.HttpOnly then "; HttpOnly" else "") ++
      (if c.Secure then "; Secure" else "") ++
      sameSiteAttr c.SameSite

/-! ## Requests, responses, configuration -/

/-- An inbound `*http.Request`; `Header` is the reference of its header map. -/
structure Request where
  Method : String
  URL : URL
  Header : Nat
  Body : String
deriving DecidableEq, Repr

/-! ## Reading the Cookie header (`readCookies` of net/http) -/

/-- The function `parseCookieValue(raw, true)`: surrounding double quotes are stripped, and
none stands for a value with an invalid byte. -/
def parseCookieValue (raw : List Char) : Option (List Char) :=
  let raw :=
    if 1 < raw.length ∧ raw.head? = some (Char.ofNat 34) ∧ raw.getLast? = some (Char.ofNat 34)
    then (raw.drop 1).dropLast else raw
  if raw.all validCookieValueByte then some raw else none

/-- One round of the inner loop of `readCookies` on a piece between semicolons. -/
def readCookiePart (filter : String) (part : List Char) : Option Cookie :=
  let part := TrimString part
  if part = [] then none
  else
    let name := TrimString (cutAt '=' part).1
    let val := (cutAt '=' part).2
    if !isCookieNameValid name then none
    else if filter ≠ "" ∧ filter ≠ String.mk name then none
    else
      match parseCookieValue val with
      | some value => some { Name := String.mk name, Value := String.mk value }
      | none => none

/-- The constant `defaultCookieMaxNum` of net/http. -/
def defaultCookieMaxNum : Nat := 3000

/-- The number of cookies the Cookie header lines may hold: per line
`strings.Count(line, ";") + 1`. -/
def cookieCount (lines : List String) : Nat :=
  (lines.map (fun line => line.data.count ';' + 1)).sum

/-- The function `readCookies(h, filter)` of net/http: the cookies of the Cookie header lines,
in order, all of them for the empty filter and else those named `filter`; no cookie at all when
the lines hold more than `defaultCookieMaxNum` parts (the default `httpcookiemaxnum`). -/
def readCookies (h : Header) (filter : String) : List Cookie :=
  if defaultCookieMaxNum < cookieCount (h.values "Cookie") then []
  else
    (h.values "Cookie").flatMap
      (fun line => (splitAtChar ';' (TrimString line.data)).filterMap (readCookiePart filter))

/-- The method `(*Request).Cookie`: the first cookie with the name, none for `ErrNoCookie`. -/
def Request.Cookie (m : Heap) (r : Request) (name : String) : Option Cookie :=
  if name = "" then none else (readCookies (m.read r.Header) name).head?

/-! ## The outbound request, the upstream response, the environment -/

/-- The outbound request made by `http.NewRequest`. -/
structure OutRequest where
  Method : String
  URL : URL
  Header : Nat
  Body : String
deriving DecidableEq, Repr

/-- The upstream `*http.Response`. -/
structure Response where
  StatusCode : Nat
  Header : Header
  Body : String
deriving DecidableEq, Repr

/-- A decoded JSON value, as `encoding/json` stores it in an `interface{}`. -/
inductive JSONValue where
  | null
  | bool (b : Bool)
  | number (digits : String)
  | string (s : String)
  | array (items : List JSONValue)
  | object (fields : List (String × JSONValue))

/-- The type assertion `v.(string)` on a map element; none is the nil element of a missing key. -/
def asString : Option JSONValue → Option String
  | some (JSONValue.string s) => some s
  | _ => none

/-- The arguments of `proxyHandler`. -/
structure Config where
  targetURL : URL
  cookieName : String
  accessTokenProperty : String
  cookieSecure : Bool
  cookieMaxAge : Int
  cookieSameSite : SameSite
  loginPath : String
  logoutPath : String
  refreshPath : String

/-- Standard-library calls whose result the handler inspects. -/
structure Net where
  /-- Whether `http.NewRequest(method, url, body)` returns an error. -/
  newRequestFails : String → URL → Bool
  /-- The call `http.DefaultClient.Do`: none for a transport error. -/
  Do : String → URL → Header → String → Option Response
  /-- The call `mime.ParseMediaType`: the media type, none for an error. -/
  ParseMediaType : String → Option String
  /-- The call `json.NewDecoder(body).Decode(&jsonBody)` into a `map[string]interface{}`:
  the decoded map, none for an error. -/
  Decode : String → Option (List (String × JSONValue))

/-- The `log.Printf` call sites of `proxyHandler`. -/
inductive LogEvent where
  | inbound (method path : String)
  | createFailed
  | usingCookie (cookieName : String)
  | proxyingTo (url : URL)
  | backendFailed
  | extracted (property loginPath : String)
  | propertyNotFound (property loginPath : String)
  | parseFailed (loginPath : String)
  | sentEmpty (loginPath : String) (status : Nat)
  | clearedCookie (logoutPath cookieName : String)
  | proxied (method path : String) (status : Nat)
deriving DecidableEq, Repr

/-- What the client receives through the `http.ResponseWriter`. -/
structure ResponseWriter where
  header : Header := []
  status : Option Nat := none
  body : String := ""
  /-- The cookies passed to `http.SetCookie`, in call order. -/
  cookiesSet : List Cookie := []
deriving DecidableEq, Repr

namespace ResponseWriter

/-- The method `WriteHeader`: the first status written is the one sent. The codes are those
net/http accepts, 100 to 999. -/
def WriteHeader (w : ResponseWriter) (code : Nat) : ResponseWriter :=
  match w.status with
  | none => { w with status := some code }
  | some _ => w

/-- The method `Write`, which sends status 200 first when none was written. -/
def Write (w : ResponseWriter) (data : String) : ResponseWriter :=
  let w := w.WriteHeader 200
  { w with body := w.body ++ data }

end ResponseWriter

/-- The function `http.SetCookie`: adds a Set-Cookie line unless `Cookie.String` is empty. -/
def SetCookie (w : ResponseWriter) (c : Cookie) : ResponseWriter :=
  let w := { w with cookiesSet := w.cookiesSet ++ [c] }
  if c.String ≠ "" then
    { w with header := w.header.Add "Set-Cookie" c.String }
  else w

/-- The function `http.Error`: a plain-text error reply. -/
def httpError (w : ResponseWriter) (error : String) (code : Nat) : ResponseWriter :=
  let h := w.header.Del "Content-Length"
  let h := h.Set "Content-Type" "text/plain; charset=utf-8"
  let h := h.Set "X-Content-Type-Options" "nosniff"
  let w := { w with header := h }
  let w := w.WriteHeader code
  w.Write (error ++ "\n")

/-- The constant `http.StatusInternalServerError`. -/
def StatusInternalServerError : Nat := 500

/-- The constant `http.StatusBadGateway`. -/
def StatusBadGateway : Nat := 502

/-! ## `proxyHandler` -/

/-- The inner loop `for _, value := range values { w.Header().Add(key, value) }`. -/
def addValues (w : ResponseWriter) (key : String) (vals : List String) : ResponseWriter :=
  vals.foldl (fun w value => { w with header := w.header.Add key value }) w

/-- Lines 189-196: copy the upstream headers, skipping the key `Content-Length`. -/
def copyHeadersExceptContentLength (w : ResponseWriter) (src : Header) : ResponseWriter :=
  (Header.range src).foldl
    (fun w e => if e.1 = "Content-Length" then w else addValues w e.1 e.2) w

/-- Lines 205-209 and 228-232: copy all upstream headers. -/
def copyHeaders (w : ResponseWriter) (src : Header) : ResponseWriter :=
  (Header.range src).foldl (fun w e => addValues w e.1 e.2) w

/-- The cookie built at lines 172-180. -/
def tokenCookie (cfg : Config) (token : String) : Cookie :=
  { Name := cfg.cookieName
    Value := token
    Path := "/"
    HttpOnly := true
    Secure := cfg.cookieSecure
    SameSite := cfg.cookieSameSite
    MaxAge := cfg.cookieMaxAge }

/-- The cookie built at lines 211-220; `time.Unix(0, 0)` is second 0. -/
def clearingCookie (cfg : Config) : Cookie :=
  { Name := cfg.cookieName
    Value := ""
    Path := "/"
    HttpOnly := true
    Secure := cfg.cookieSecure
    SameSite := cfg.cookieSameSite
    MaxAge := -1
    Expires := some 0 }

/-- The condition of the `if` at line 167. -/
def isTokenResponse (cfg : Config) (net : Net) (r : Request) (resp : Response) : Prop :=
  (r.URL.Path = cfg.loginPath ∨ r.URL.Path = cfg.refreshPath) ∧
    net.ParseMediaType (resp.Header.Get "Content-Type") = some "application/json"

instance (cfg : Config) (net : Net) (r : Request) (resp : Response) :
    Decidable (isTokenResponse cfg net r resp) := by
  unfold isTokenResponse; infer_instance

/-- Lines 165-236: shape the client response from the upstream response. -/
def shapeResponse (cfg : Config) (net : Net) (r : Request) (resp : Response)
    (w : ResponseWriter) (log : List LogEvent) : ResponseWriter × List LogEvent :=
  if isTokenResponse cfg net r resp then
    let wl : ResponseWriter × List LogEvent :=
      match net.Decode resp.Body with
      | some jsonBody =>
        match asString (jsonBody.lookup cfg.accessTokenProperty) with
        | some token =>
          (SetCookie w (tokenCookie cfg token),
            log ++ [LogEvent.extracted cfg.accessTokenProperty cfg.loginPath])
        | none => (w, log ++ [LogEvent.propertyNotFound cfg.accessTokenProperty cfg.loginPath])
      | none => (w, log ++ [LogEvent.parseFailed cfg.loginPath])
    let w := copyHeadersExceptContentLength wl.1 resp.Header
    let w := w.WriteHeader resp.StatusCode
    (w, wl.2 ++ [LogEvent.sentEmpty cfg.loginPath resp.StatusCode])
  else if r.URL.Path = cfg.logoutPath then
    let w := copyHeaders w resp.Header
    let w := SetCookie w (clearingCookie cfg)
    let w := w.WriteHeader resp.StatusCode
    let w := w.Write resp.Body
    (w, log ++ [LogEvent.clearedCookie cfg.logoutPath cfg.cookieName])
  else
    let w := copyHeaders w resp.Header
    let w := w.WriteHeader resp.StatusCode
    let w := w.Write resp.Body
    (w, log ++ [LogEvent.proxied r.Method r.URL.Path resp.StatusCode])

/-- Lines 148-153: clone the inbound headers and inject the bearer token. -/
def buildHeader (cfg : Config) (m : Heap) (r : Request) (log : List LogEvent) :
    Heap × Nat × List LogEvent :=
  let a := m.alloc (m.read r.Header).Clone
  match r.Cookie a.1 cfg.cookieName with
  | some authCookie =>
    if authCookie.Value ≠ "" then
      (a.1.write a.2 ((a.1.read a.2).Set "Authorization" ("Bearer " ++ authCookie.Value)),
        a.2, log ++ [LogEvent.usingCookie cfg.cookieName])
    else (a.1, a.2, log)
  | none => (a.1, a.2, log)

/-- The header map of the outbound request when it is handed to `Do`: the inbound header map,
with Authorization set as lines 150-153 do. -/
def injected (cfg : Config) (m : Heap) (r : Request) (inbound : Header) : Header :=
  match r.Cookie m cfg.cookieName with
  | some authCookie =>
    if authCookie.Value ≠ "" then inbound.Set "Authorization" ("Bearer " ++ authCookie.Value)
    else inbound
  | none => inbound

/-- The state after a request was handled. -/
structure Outcome where
  /-- The header maps. -/
  heap : Heap
  /-- The outbound request, when `http.NewRequest` succeeded. -/
  req : Option OutRequest
  /-- The upstream response, when `Do` succeeded. -/
  resp : Option Response
  /-- The client response. -/
  w : ResponseWriter
  /-- The log lines. -/
  log : List LogEvent

/-- The handler returned by `proxyHandler`, run on a fresh `ResponseWriter`. -/
def proxyHandler (cfg : Config) (net : Net) (m : Heap) (r : Request) : Outcome :=
  let w : ResponseWriter := {}
  let log := [LogEvent.inbound r.Method r.URL.Path]
  let proxyURL := cfg.targetURL.ResolveReference r.URL
  if net.newRequestFails r.Method proxyURL then
    { heap := m, req := none, resp := none
      w := httpError w "Failed to create request" StatusInternalServerError
      log := log ++ [LogEvent.createFailed] }
  else
    let b := buildHeader cfg m r log
    let req : OutRequest := { Method := r.Method, URL := proxyURL, Header := b.2.1, Body := r.Body }
    let log := b.2.2 ++ [LogEvent.proxyingTo proxyURL]
    match net.Do req.Method req.URL (b.1.read req.Header) req.Body with
    | none =>
      { heap := b.1, req := some req, resp := none
        w := httpError w "Failed to reach backend" StatusBadGateway
        log := log ++ [LogEvent.backendFailed] }
    | some resp =>
      let s := shapeResponse cfg net r resp w log
      { heap := b.1, req := some req, resp := some resp, w := s.1, log := s.2 }

/-! ## A sample deployment, used to exercise the theorems -/

/-- Lower-case an ASCII letter. -/
def lowerASCII (c : Char) : Char :=
  if 65 ≤ c.toNat ∧ c.toNat ≤ 90 then Char.ofNat (c.toNat + 32) else c

/-- A sample `mime.ParseMediaType` for well-formed values: the text before the first
semicolon, lower-cased and trimmed; an error when nothing is left. -/
def sampleParseMediaType (v : String) : Option String :=
  let base := (v.data.takeWhile (fun c => c ≠ ';')).map lowerASCII
  if TrimString base = [] then none else some (String.mk (TrimString base))

/-- Drop leading JSON white space. -/
def skipSpace : List Char → List Char
  | [] => []
  | c :: cs =>
    if c.toNat = 32 ∨ c.toNat = 9 ∨ c.toNat = 10 ∨ c.toNat = 13 then skipSpace cs else c :: cs

/-- Read a JSON string without escapes after its opening quote: the text and what follows the
closing quote. -/
def sampleString : List Char → Option (List Char × List Char)
  | [] => none
  | c :: cs =>
    if c.toNat = 34 then some ([], cs)
    else if c.toNat = 92 ∨ c.toNat < 32 then none
    else (sampleString cs).map (fun p => (c :: p.1, p.2))

/-- Read a JSON string, a run of digits, `true`, `false` or `null`, and return what follows. -/
def sampleValue (s : List Char) : Option (JSONValue × List Char) :=
  match s with
  | [] => none
  | c :: cs =>
    if c.toNat = 34 then
      (sampleString cs).map (fun p => (JSONValue.string (String.mk p.1), p.2))
    else if s.take 4 = ['t', 'r', 'u', 'e'] then some (JSONValue.bool true, s.drop 4)
    else if s.take 5 = ['f', 'a', 'l', 's', 'e'] then some (JSONValue.bool false, s.drop 5)
    else if s.take 4 = ['n', 'u', 'l', 'l'] then some (JSONValue.null, s.drop 4)
    else if s.takeWhile (fun d => 48 ≤ d.toNat ∧ d.toNat ≤ 57) = [] then none
    else
      some (JSONValue.number (String.mk (s.takeWhile (fun d => 48 ≤ d.toNat ∧ d.toNat ≤ 57))),
        s.dropWhile (fun d => 48 ≤ d.toNat ∧ d.toNat ≤ 57))

/-- Read the members of a JSON object after its opening brace; a later member with the same
key comes first, so that it is the one looked up. What follows the closing brace is not read. -/
def sampleMembers : Nat → List Char → List (String × JSONValue) →
    Option (List (String × JSONValue))
  | 0, _, _ => none
  | fuel + 1, s, acc =>
    match skipSpace s with
    | [] => none
    | c :: cs =>
      if c.toNat ≠ 34 then none
      else
        match sampleString cs with
        | none => none
        | some (key, rest) =>
          match skipSpace rest with
          | [] => none
          | d :: ds =>
            if d ≠ ':' then none
            else
              match sampleValue (skipSpace ds) with
              | none => none
              | some (v, rest2) =>
                match skipSpace rest2 with
                | [] => none
                | e :: es =>
                  if e = ',' then sampleMembers fuel es ((String.mk key, v) :: acc)
                  else if e.toNat = 125 then some ((String.mk key, v) :: acc)
                  else none

/-- A sample `Decode` for a body that starts with `null` (a nil map) or with a flat JSON object
of plain strings, digits, `true`, `false` and `null`; like `json.Decoder` it reads the first
value only. -/
def sampleDecode (body : String) : Option (List (String × JSONValue)) :=
  match skipSpace body.data with
  | [] => none
  | c :: cs =>
    if c.toNat = 123 then
      match skipSpace cs with
      | [] => none
      | d :: _ => if d.toNat = 125 then some [] else sampleMembers body.length cs []
    else if (c :: cs).take 4 = ['n', 'u', 'l', 'l'] ∧
        skipSpace (((c :: cs).drop 4).take 1) = [] then some []
    else none

/-- A sample environment whose upstream answers every request for `backend:9000` with `answer`. -/
def sampleNet (answer : Option Response) : Net :=
  { newRequestFails := fun method _ => method.data.contains ' '
    Do := fun _ url _ _ => if url.Host = "backend:9000" then answer else none
    ParseMediaType := sampleParseMediaType
    Decode := sampleDecode }

/-- A sample environment whose upstream answers `withToken` to a request carrying
`Authorization: Bearer ab` and `without` to any other request. -/
def bearerNet (withToken without : Response) : Net :=
  { newRequestFails := fun _ _ => false
    Do := fun _ _ hdr _ =>
      if hdr.values "Authorization" = ["Bearer ab"] then some withToken else some without
    ParseMediaType := sampleParseMediaType
    Decode := sampleDecode }

/-- A sample configuration with the default paths of `main`. -/
def sampleConfig : Config :=
  { targetURL := { Scheme := "http", Host := "backend:9000" }
    cookieName := "tok"
    accessTokenProperty := "accessToken"
    cookieSecure := true
    cookieMaxAge := 3600
    cookieSameSite := SameSite.StrictMode
    loginPath := "/login"
    logoutPath := "/logout"
    refreshPath := "/refresh-token" }

/-- A sample request in origin form. -/
def sampleRequest (method path : String) : Request :=
  { Method := method, URL := { Path := path }, Header := 0, Body := "payload" }

/-- A sample heap holding at reference 0 the header map of an inbound request with the given
Cookie header lines. -/
def sampleHeap (cookie : List String) : Heap :=
  [[("Accept", ["*/*"]), ("Authorization", ["Basic abc"]), ("Cookie", cookie)]]

/-- A sample upstream login answer. -/
def loginAnswer : Response :=
  { StatusCode := 201
    Header := [("Content-Type", ["application/json; charset=utf-8"]), ("Content-Length", ["24"]),
      ("Set-Cookie", ["lang=en"])]
    Body := "\x7b\"accessToken\":\"tok123\"\x7d" }

/-- A sample upstream login answer without the token property. -/
def otherAnswer : Response :=
  { StatusCode := 200
    Header := [("Content-Type", ["application/json"]), ("Content-Length", ["13"]),
      ("Set-Cookie", ["lang=en"])]
    Body := "\x7b\"other\":\"x\"\x7d" }

/-- A sample upstream answer that is not JSON. -/
def plainAnswer : Response :=
  { StatusCode := 404
    Header := [("Content-Type", ["text/plain"]), ("Content-Length", ["9"])]
    Body := "not found" }

/-- A sample upstream login answer whose token holds a semicolon. -/
def oddTokenAnswer : Response :=
  { StatusCode := 200
    Header := [("Content-Type", ["application/json"]), ("Content-Length", ["21"])]
    Body := "\x7b\"accessToken\":\"a;b\"\x7d" }

/-- A sample upstream login answer with bytes after the JSON object. -/
def trailingAnswer : Response :=
  { StatusCode := 200
    Header := [("Content-Type", ["application/json"])]
    Body := "\x7b\"accessToken\":\"tok123\"\x7d trailing" }

/-- A sample configuration whose cookie name is not a valid cookie name. -/
def spacedNameConfig : Config :=
  { sampleConfig with cookieName := "my cookie" }

/-- A sample configuration whose logout path is also its login path. -/
def sharedPathConfig : Config :=
  { sampleConfig with logoutPath := "/login" }

/-- A sample request whose request line is `GET http://evil.example/x HTTP/1.1`. -/
def absoluteRequest : Request :=
  { Method := "GET", URL := { Scheme := "http", Host := "evil.example", Path := "/x" },
    Header := 0, Body := "" }

/-! ## Auxiliary definitions for the proofs -/

/-- Copying a header map while skipping the keys chosen by `skip`. -/
def copyStep (skip : String → Bool) (w : ResponseWriter) (e : String × List String) :
    ResponseWriter :=
  if skip e.1 then w else addValues w e.1 e.2

/-- The shaping branches of the per-request state machine. -/
inductive Branch where
  | LoginShaped
  | LogoutShaped
  | Passthrough
deriving DecidableEq, Repr

/-- The shaping branch a log line closes: each branch ends with its own `log.Printf`
(lines 198, 223 and 236). -/
def LogEvent.branch : LogEvent → Option Branch
  | LogEvent.sentEmpty _ _ => some Branch.LoginShaped
  | LogEvent.clearedCookie _ _ => some Branch.LogoutShaped
  | LogEvent.proxied _ _ _ => some Branch.Passthrough
  | _ => none

/-! ## Header map lemmas -/

theorem lookup_Del (h : Header) (k key : String) :
    List.lookup key (Header.Del h k) = if key = k then none else List.lookup key h := by
  induction h with
  | nil => simp [Header.Del]
  | cons e rest ih =>
    obtain ⟨a, vs⟩ := e
    unfold Header.Del at ih ⊢
    by_cases hak : a = k
    · subst hak
      by_cases hk : key = a
      · subst hk; simpa [List.filter] using ih
      · have hne : (key == a) = false := by simpa using hk
        simp [List.filter, List.lookup, hne, ih, hk]
    · have h1 : (a == k) = false := by simpa using hak
      by_cases hk : key = k
      · subst hk
        have h2 : (key == a) = false := by
          simp only [beq_eq_false_iff_ne, ne_eq]; exact fun h => hak h.symm
        simp [List.filter, h1, List.lookup, h2, ih]
      · by_cases hka : key = a
        · subst hka; simp [List.filter, h1, List.lookup, hk]
        · have h2 : (key == a) = false := by simpa using hka
          simp [List.filter, h1, List.lookup, h2, ih, hk]

theorem values_Del (h : Header) (k key : String) :
    (h.Del k).values key = if key = k then [] else h.values key := by
  unfold Header.values
  rw [lookup_Del]
  by_cases hk : key = k <;> simp [hk]

theorem values_Set (h : Header) (k v key : String) :
    (h.Set k v).values key = if key = k then [v] else h.values key := by
  by_cases hk : key = k
  · subst hk; simp [Header.Set, Header.values, List.lookup]
  · have h2 : (key == k) = false := by simpa using hk
    have := values_Del h k key
    simp only [hk, if_false] at this ⊢
    simpa [Header.Set, Header.values, List.lookup, h2] using this

theorem values_Add (h : Header) (k v key : String) :
    (h.Add k v).values key = if key = k then h.values k ++ [v] else h.values key := by
  by_cases hk : key = k
  · subst hk; simp [Header.Add, Header.values, List.lookup]
  · have h2 : (key == k) = false := by simpa using hk
    have := values_Del h k key
    simp only [hk, if_false] at this ⊢
    simpa [Header.Add, Header.values, List.lookup, h2] using this

theorem values_cons_ne (a key : String) (vs : List String) (rest : Header) (hne : key ≠ a) :
    Header.values ((a, vs) :: rest) key = Header.values rest key := by
  have h2 : (key == a) = false := by simpa using hne
  simp [Header.values, List.lookup, h2]

theorem values_cons_eq (a : String) (vs : List String) (rest : Header) :
    Header.values ((a, vs) :: rest) a = vs := by
  simp [Header.values, List.lookup]

theorem addValues_header (w : ResponseWriter) (k key : String) (vals : List String) :
    (addValues w k vals).header.values key =
      if key = k then w.header.values k ++ vals else w.header.values key := by
  unfold addValues
  induction vals generalizing w with
  | nil => by_cases hk : key = k <;> simp [hk]
  | cons v vs ih =>
    rw [List.foldl_cons, ih]
    by_cases hk : key = k
    · simp [hk, values_Add]
    · simp [hk, values_Add]

theorem addValues_rest (w : ResponseWriter) (k : String) (vals : List String) :
    (addValues w k vals).status = w.status ∧ (addValues w k vals).body = w.body ∧
      (addValues w k vals).cookiesSet = w.cookiesSet := by
  unfold addValues
  induction vals generalizing w with
  | nil => simp
  | cons v vs ih =>
    rw [List.foldl_cons]
    obtain ⟨h1, h2, h3⟩ := ih { w with header := w.header.Add k v }
    exact ⟨h1, h2, h3⟩

theorem copyStep_fold_header (skip : String → Bool) (src : Header) (seen : List String)
    (w : ResponseWriter) (key : String) :
    ((Header.rangeFrom seen src).foldl (copyStep skip) w).header.values key =
      if skip key = true ∨ key ∈ seen then w.header.values key
      else w.header.values key ++ src.values key := by
  induction src generalizing seen w with
  | nil => simp [Header.rangeFrom, Header.values]
  | cons e rest ih =>
    obtain ⟨a, vs⟩ := e
    unfold Header.rangeFrom
    by_cases ha : a ∈ seen
    · rw [if_pos ha, ih]
      by_cases hc : skip key = true ∨ key ∈ seen
      · rw [if_pos hc, if_pos hc]
      · rw [if_neg hc, if_neg hc]
        have hne : key ≠ a := fun h => hc (Or.inr (h ▸ ha))
        rw [values_cons_ne a key vs rest hne]
    · rw [if_neg ha, List.foldl_cons, ih]
      by_cases hka : key = a
      · subst hka
        by_cases hs : skip key = true
        · simp [hs, copyStep]
        · simp [hs, ha, copyStep, addValues_header, values_cons_eq]
      · have hmem : key ∈ a :: seen ↔ key ∈ seen := by simp [hka]
        have hw : (copyStep skip w (a, vs)).header.values key = w.header.values key := by
          unfold copyStep
          by_cases hs : skip a = true
          · simp [hs]
          · simp [hs, addValues_header, hka]
        rw [hw, values_cons_ne a key vs rest hka]
        simp only [hmem]

theorem copyStep_fold_rest (skip : String → Bool) (es : List (String × List String))
    (w : ResponseWriter) :
    (es.foldl (copyStep skip) w).status = w.status ∧ (es.foldl (copyStep skip) w).body = w.body ∧
      (es.foldl (copyStep skip) w).cookiesSet = w.cookiesSet := by
  induction es generalizing w with
  | nil => simp
  | cons e rest ih =>
    rw [List.foldl_cons]
    obtain ⟨h1, h2, h3⟩ := ih (copyStep skip w e)
    have hs : (copyStep skip w e).status = w.status ∧ (copyStep skip w e).body = w.body ∧
        (copyStep skip w e).cookiesSet = w.cookiesSet := by
      unfold copyStep
      by_cases hk : skip e.1 = true
      · simp [hk]
      · simpa [hk] using addValues_rest w e.1 e.2
    exact ⟨h1.trans hs.1, h2.trans hs.2.1, h3.trans hs.2.2⟩

theorem copyHeaders_eq (w : ResponseWriter) (src : Header) :
    copyHeaders w src = (Header.range src).foldl (copyStep (fun _ => false)) w := by
  unfold copyHeaders
  congr 1

theorem copyHeadersExceptContentLength_eq (w : ResponseWriter) (src : Header) :
    copyHeadersExceptContentLength w src =
      (Header.range src).foldl (copyStep (fun k => decide (k = "Content-Length"))) w := by
  unfold copyHeadersExceptContentLength
  congr 1
  funext w e
  unfold copyStep
  by_cases hk : e.1 = "Content-Length" <;> simp [hk]

theorem copyHeaders_header (w : ResponseWriter) (src : Header) (key : String) :
    (copyHeaders w src).header.values key = w.header.values key ++ src.values key := by
  rw [copyHeaders_eq, Header.range, copyStep_fold_header]
  simp

theorem copyHeadersExceptContentLength_header (w : ResponseWriter) (src : Header) (key : String) :
    (copyHeadersExceptContentLength w src).header.values key =
      if key = "Content-Length" then w.header.values key
      else w.header.values key ++ src.values key := by
  rw [copyHeadersExceptContentLength_eq, Header.range, copyStep_fold_header]
  by_cases hk : key = "Content-Length" <;> simp [hk]

theorem copyHeaders_rest (w : ResponseWriter) (src : Header) :
    (copyHeaders w src).status = w.status ∧ (copyHeaders w src).body = w.body ∧
      (copyHeaders w src).cookiesSet = w.cookiesSet := by
  rw [copyHeaders_eq]
  exact copyStep_fold_rest _ _ w

theorem copyHeadersExceptContentLength_rest (w : ResponseWriter) (src : Header) :
    (copyHeadersExceptContentLength w src).status = w.status ∧
      (copyHeadersExceptContentLength w src).body = w.body ∧
      (copyHeadersExceptContentLength w src).cookiesSet = w.cookiesSet := by
  rw [copyHeadersExceptContentLength_eq]
  exact copyStep_fold_rest _ _ w

/-! ## Heap lemmas -/

theorem read_alloc_new (m : Heap) (h : Header) : (m.alloc h).1.read (m.alloc h).2 = h := by
  simp [Heap.alloc, Heap.read, List.getD]

theorem read_alloc_old (m : Heap) (h : Header) (p : Nat) (hp : p < m.length) :
    (m.alloc h).1.read p = m.read p := by
  simp [Heap.alloc, Heap.read, List.getD, List.getElem?_append_left hp]

theorem read_write_same (m : Heap) (p : Nat) (h : Header) (hp : p < m.length) :
    (m.write p h).read p = h := by
  simp [Heap.write, Heap.read, List.getD, hp]

theorem read_write_other (m : Heap) (p q : Nat) (h : Header) (hpq : q ≠ p) :
    (m.write p h).read q = m.read q := by
  simp [Heap.write, Heap.read, List.getD, List.getElem?_set_ne (Ne.symm hpq)]

theorem read_alloc_self (m : Heap) (p : Nat) :
    (m.alloc (m.read p).Clone).1.read p = m.read p := by
  by_cases hp : p < m.length
  · exact read_alloc_old m _ p hp
  · have hge : m.length ≤ p := Nat.le_of_not_lt hp
    have hnone : m.read p = [] := by
      simp [Heap.read, List.getD, List.getElem?_eq_none hge]
    rw [hnone]
    by_cases he : p = m.length
    · subst he
      simp [Heap.alloc, Heap.read, List.getD, Header.Clone]
    · have hgt : (m ++ [Header.Clone []]).length ≤ p := by
        simp only [List.length_append, List.length_singleton]; omega
      simp [Heap.alloc, Heap.read, List.getD, List.getElem?_eq_none hgt]

theorem Cookie_alloc (m : Heap) (r : Request) (name : String) :
    r.Cookie (m.alloc (m.read r.Header).Clone).1 name = r.Cookie m name := by
  unfold Request.Cookie
  rw [read_alloc_self]

theorem buildHeader_ref (cfg : Config) (m : Heap) (r : Request) (log : List LogEvent) :
    (buildHeader cfg m r log).2.1 = m.length := by
  unfold buildHeader
  dsimp only
  split
  · split <;> rfl
  · rfl

theorem buildHeader_new (cfg : Config) (m : Heap) (r : Request) (log : List LogEvent) :
    (buildHeader cfg m r log).1.read (buildHeader cfg m r log).2.1 =
      injected cfg m r (m.read r.Header) := by
  unfold buildHeader injected
  simp only [Cookie_alloc m r cfg.cookieName]
  cases r.Cookie m cfg.cookieName with
  | none => exact read_alloc_new m _
  | some c =>
    by_cases hv : c.Value = ""
    · simpa [hv] using read_alloc_new m (m.read r.Header).Clone
    · simp only [ne_eq, hv, not_false_eq_true, if_true]
      rw [read_write_same _ _ _ (by simp [Heap.alloc]), read_alloc_new]
      rfl

theorem buildHeader_old (cfg : Config) (m : Heap) (r : Request) (log : List LogEvent)
    (p : Nat) (hp : p < m.length) :
    (buildHeader cfg m r log).1.read p = m.read p := by
  unfold buildHeader
  dsimp only
  split
  · split
    · rw [read_write_other _ _ _ _ (by simp only [Heap.alloc]; omega), read_alloc_old m _ p hp]
    · exact read_alloc_old m _ p hp
  · exact read_alloc_old m _ p hp

/-! ## The cookie that `r.Cookie` returns -/

theorem readCookiePart_filter (name : String) (part : List Char) (hn : name ≠ "") :
    readCookiePart name part =
      (readCookiePart "" part).filter (fun c => c.Name == name) := by
  unfold readCookiePart
  dsimp only
  by_cases hp : TrimString part = []
  · simp [hp]
  · by_cases hv : isCookieNameValid (TrimString (cutAt '=' (TrimString part)).1) = true
    · by_cases hf : name = String.mk (TrimString (cutAt '=' (TrimString part)).1)
      · cases hval : parseCookieValue (cutAt '=' (TrimString part)).2 with
        | none => simp [hp, hv, hval]
        | some v => simp [hp, hv, hval, hn, ← hf, Option.filter]
      · cases hval : parseCookieValue (cutAt '=' (TrimString part)).2 with
        | none => simp [hp, hv, hval, hn, hf]
        | some v =>
          have hf2 : ¬ String.mk (TrimString (cutAt '=' (TrimString part)).1) = name :=
            fun h => hf h.symm
          simp [hp, hv, hval, hn, hf, hf2, Option.filter]
    · simp [hp, hv]

theorem readCookies_filter (h : Header) (name : String) (hn : name ≠ "") :
    readCookies h name = (readCookies h "").filter (fun c => c.Name == name) := by
  unfold readCookies
  by_cases hlim : defaultCookieMaxNum < cookieCount (h.values "Cookie")
  · simp [hlim]
  · rw [if_neg hlim, if_neg hlim, List.filter_flatMap]
    congr 1
    funext line
    rw [List.filter_filterMap]
    congr 1
    funext part
    exact readCookiePart_filter name part hn

theorem Cookie_first (m : Heap) (r : Request) (name : String) (hn : name ≠ "") :
    r.Cookie m name = (readCookies (m.read r.Header) "").find? (fun c => c.Name == name) := by
  unfold Request.Cookie
  rw [if_neg hn, readCookies_filter _ _ hn, List.filter_head?]

/-! ## The handler, step by step -/

theorem proxyHandler_fail_new (cfg : Config) (net : Net) (m : Heap) (r : Request)
    (hnew : net.newRequestFails r.Method (cfg.targetURL.ResolveReference r.URL) = true) :
    (proxyHandler cfg net m r).req = none ∧ (proxyHandler cfg net m r).resp = none ∧
      (proxyHandler cfg net m r).heap = m ∧
      (proxyHandler cfg net m r).w =
        httpError {} "Failed to create request" StatusInternalServerError := by
  simp [proxyHandler, hnew]

theorem proxyHandler_req (cfg : Config) (net : Net) (m : Heap) (r : Request)
    (hnew : net.newRequestFails r.Method (cfg.targetURL.ResolveReference r.URL) = false) :
    (proxyHandler cfg net m r).req =
        some { Method := r.Method, URL := cfg.targetURL.ResolveReference r.URL,
               Header := m.length, Body := r.Body } ∧
      (proxyHandler cfg net m r).heap =
        (buildHeader cfg m r [LogEvent.inbound r.Method r.URL.Path]).1 := by
  unfold proxyHandler
  simp only [hnew, Bool.false_eq_true, if_false]
  split <;> simp [buildHeader_ref]

theorem proxyHandler_req_some (cfg : Config) (net : Net) (m : Heap) (r : Request)
    (q : OutRequest) (hq : (proxyHandler cfg net m r).req = some q) :
    net.newRequestFails r.Method (cfg.targetURL.ResolveReference r.URL) = false := by
  by_contra hne
  have hnew : net.newRequestFails r.Method (cfg.targetURL.ResolveReference r.URL) = true := by
    simpa using hne
  rw [(proxyHandler_fail_new cfg net m r hnew).1] at hq
  exact Option.noConfusion hq

theorem proxyHandler_fail_do (cfg : Config) (net : Net) (m : Heap) (r : Request)
    (q : OutRequest) (hq : (proxyHandler cfg net m r).req = some q)
    (hresp : (proxyHandler cfg net m r).resp = none) :
    (proxyHandler cfg net m r).w = httpError {} "Failed to reach backend" StatusBadGateway := by
  have hnew := proxyHandler_req_some cfg net m r q hq
  unfold proxyHandler at hresp ⊢
  simp only [hnew, Bool.false_eq_true, if_false] at hresp ⊢
  split
  · rfl
  · rename_i resp hdo
    simp only [hdo] at hresp
    exact Option.noConfusion hresp

theorem proxyHandler_resp (cfg : Config) (net : Net) (m : Heap) (r : Request) (resp : Response)
    (hresp : (proxyHandler cfg net m r).resp = some resp) :
    ∃ log, (proxyHandler cfg net m r).w = (shapeResponse cfg net r resp {} log).1 ∧
      (proxyHandler cfg net m r).log = (shapeResponse cfg net r resp {} log).2 ∧
      (∀ e ∈ log, ∀ p s, e ≠ LogEvent.sentEmpty p s) ∧
      (∀ e ∈ log, ∀ p c, e ≠ LogEvent.clearedCookie p c) ∧
      (∀ e ∈ log, ∀ a b s, e ≠ LogEvent.proxied a b s) ∧
      net.newRequestFails r.Method (cfg.targetURL.ResolveReference r.URL) = false := by
  by_cases hnew : net.newRequestFails r.Method (cfg.targetURL.ResolveReference r.URL) = true
  · rw [(proxyHandler_fail_new cfg net m r hnew).2.1] at hresp
    exact Option.noConfusion hresp
  · have hnew : net.newRequestFails r.Method (cfg.targetURL.ResolveReference r.URL) = false := by
      simpa using hnew
    refine ⟨(buildHeader cfg m r [LogEvent.inbound r.Method r.URL.Path]).2.2 ++
      [LogEvent.proxyingTo (cfg.targetURL.ResolveReference r.URL)], ?_⟩
    unfold proxyHandler at hresp ⊢
    simp only [hnew, Bool.false_eq_true, if_false] at hresp ⊢
    split
    · rename_i hdo
      simp only [hdo] at hresp
      exact Option.noConfusion hresp
    · rename_i resp2 hdo
      simp only [hdo, Option.some.injEq] at hresp
      subst hresp
      refine ⟨rfl, rfl, ?_, ?_, ?_, trivial⟩ <;>
      · intro e he
        have hmem : e = LogEvent.inbound r.Method r.URL.Path ∨
            e = LogEvent.usingCookie cfg.cookieName ∨
            e = LogEvent.proxyingTo (cfg.targetURL.ResolveReference r.URL) := by
          unfold buildHeader at he
          dsimp only at he
          split at he
          · split at he
            · simp at he; tauto
            · simp at he; tauto
          · simp at he; tauto
        rcases hmem with h | h | h <;> subst h <;> intros <;> simp

theorem proxyHandler_do (cfg : Config) (net : Net) (m : Heap) (r : Request) (resp : Response)
    (hnew : net.newRequestFails r.Method (cfg.targetURL.ResolveReference r.URL) = false)
    (hdo : net.Do r.Method (cfg.targetURL.ResolveReference r.URL)
      (injected cfg m r (m.read r.Header)) r.Body = some resp) :
    (proxyHandler cfg net m r).resp = some resp := by
  have hb := buildHeader_new cfg m r [LogEvent.inbound r.Method r.URL.Path]
  unfold proxyHandler
  simp only [hnew, Bool.false_eq_true, if_false]
  rw [hb, hdo]

theorem proxyHandler_do_none (cfg : Config) (net : Net) (m : Heap) (r : Request)
    (hnew : net.newRequestFails r.Method (cfg.targetURL.ResolveReference r.URL) = false)
    (hdo : net.Do r.Method (cfg.targetURL.ResolveReference r.URL)
      (injected cfg m r (m.read r.Header)) r.Body = none) :
    (proxyHandler cfg net m r).resp = none := by
  have hb := buildHeader_new cfg m r [LogEvent.inbound r.Method r.URL.Path]
  unfold proxyHandler
  simp only [hnew, Bool.false_eq_true, if_false]
  rw [hb, hdo]

/-! ## Response shaping, branch by branch -/

theorem SetCookie_header (w : ResponseWriter) (c : Cookie) (key : String) :
    (SetCookie w c).header.values key =
      if key = "Set-Cookie" then
        w.header.values key ++ (if c.String = "" then [] else [c.String])
      else w.header.values key := by
  unfold SetCookie
  by_cases hs : c.String = ""
  · by_cases hk : key = "Set-Cookie" <;> simp [hs, hk]
  · by_cases hk : key = "Set-Cookie" <;> simp [hs, hk, values_Add]

theorem SetCookie_rest (w : ResponseWriter) (c : Cookie) :
    (SetCookie w c).status = w.status ∧ (SetCookie w c).body = w.body ∧
      (SetCookie w c).cookiesSet = w.cookiesSet ++ [c] := by
  unfold SetCookie
  by_cases hs : c.String = "" <;> simp [hs]

theorem shape_token (cfg : Config) (net : Net) (r : Request) (resp : Response)
    (w : ResponseWriter) (log : List LogEvent) (obj : List (String × JSONValue)) (t : String)
    (hb : isTokenResponse cfg net r resp) (hdec : net.Decode resp.Body = some obj)
    (htok : asString (obj.lookup cfg.accessTokenProperty) = some t) :
    shapeResponse cfg net r resp w log =
      (ResponseWriter.WriteHeader
          (copyHeadersExceptContentLength (SetCookie w (tokenCookie cfg t)) resp.Header)
          resp.StatusCode,
        log ++ [LogEvent.extracted cfg.accessTokenProperty cfg.loginPath] ++
          [LogEvent.sentEmpty cfg.loginPath resp.StatusCode]) := by
  unfold shapeResponse
  simp only [hb, if_true, hdec, htok]

theorem shape_soft (cfg : Config) (net : Net) (r : Request) (resp : Response)
    (w : ResponseWriter) (log : List LogEvent)
    (hb : isTokenResponse cfg net r resp)
    (hfail : net.Decode resp.Body = none ∨
      ∃ obj, net.Decode resp.Body = some obj ∧
        asString (obj.lookup cfg.accessTokenProperty) = none) :
    ∃ e, shapeResponse cfg net r resp w log =
      (ResponseWriter.WriteHeader (copyHeadersExceptContentLength w resp.Header) resp.StatusCode,
        log ++ [e] ++ [LogEvent.sentEmpty cfg.loginPath resp.StatusCode]) ∧
      (∀ p s, e ≠ LogEvent.sentEmpty p s) ∧ (∀ p c, e ≠ LogEvent.clearedCookie p c) ∧
      (∀ a b s, e ≠ LogEvent.proxied a b s) := by
  unfold shapeResponse
  rcases hfail with hnone | ⟨obj, hdec, hno⟩
  · exact ⟨LogEvent.parseFailed cfg.loginPath, by simp only [hb, if_true, hnone],
      by simp, by simp, by simp⟩
  · exact ⟨LogEvent.propertyNotFound cfg.accessTokenProperty cfg.loginPath,
      by simp only [hb, if_true, hdec, hno], by simp, by simp, by simp⟩

theorem shape_logout (cfg : Config) (net : Net) (r : Request) (resp : Response)
    (w : ResponseWriter) (log : List LogEvent)
    (hb : ¬ isTokenResponse cfg net r resp) (hpath : r.URL.Path = cfg.logoutPath) :
    shapeResponse cfg net r resp w log =
      (ResponseWriter.Write
          (ResponseWriter.WriteHeader
            (SetCookie (copyHeaders w resp.Header) (clearingCookie cfg)) resp.StatusCode)
          resp.Body,
        log ++ [LogEvent.clearedCookie cfg.logoutPath cfg.cookieName]) := by
  unfold shapeResponse
  simp only [hb, if_false, hpath, if_true]

theorem shape_default (cfg : Config) (net : Net) (r : Request) (resp : Response)
    (w : ResponseWriter) (log : List LogEvent)
    (hb : ¬ isTokenResponse cfg net r resp) (hpath : r.URL.Path ≠ cfg.logoutPath) :
    shapeResponse cfg net r resp w log =
      (ResponseWriter.Write
          (ResponseWriter.WriteHeader (copyHeaders w resp.Header) resp.StatusCode) resp.Body,
        log ++ [LogEvent.proxied r.Method r.URL.Path resp.StatusCode]) := by
  unfold shapeResponse
  simp only [hb, if_false, hpath]

theorem WriteHeader_fresh (w : ResponseWriter) (code : Nat) (hs : w.status = none) :
    (w.WriteHeader code).status = some code ∧ (w.WriteHeader code).header = w.header ∧
      (w.WriteHeader code).body = w.body ∧ (w.WriteHeader code).cookiesSet = w.cookiesSet := by
  unfold ResponseWriter.WriteHeader
  simp [hs]

theorem Write_after (w : ResponseWriter) (data : String) (code : Nat)
    (hs : w.status = some code) :
    (w.Write data).status = some code ∧ (w.Write data).header = w.header ∧
      (w.Write data).body = w.body ++ data ∧ (w.Write data).cookiesSet = w.cookiesSet := by
  unfold ResponseWriter.Write ResponseWriter.WriteHeader
  simp [hs]

theorem empty_append (s : String) : "" ++ s = s := by
  show String.append "" s = s
  cases s
  rfl


/-! ## The Set-Cookie lines the proxy writes -/

theorem append_ne_empty (a b : String) (ha : a ≠ "") : a ++ b ≠ "" := by
  intro h
  apply ha
  have hl := congrArg String.length h
  simp only [String.length_append] at hl
  have h0 : a.length = 0 := by
    have : ("" : String).length = 0 := rfl
    omega
  exact String.ext (List.length_eq_zero.mp h0)

theorem name_ne_empty (name : String) (hv : isCookieNameValid name.data = true) :
    name ≠ "" := by
  intro h
  subst h
  exact absurd hv (by decide)

theorem Cookie_String_invalid (c : Cookie) (hv : isCookieNameValid c.Name.data = false) :
    c.String = "" := by
  unfold Cookie.String
  rw [if_pos hv]

theorem Cookie_String_ne_empty (c : Cookie) (hv : isCookieNameValid c.Name.data = true) :
    c.String ≠ "" := by
  unfold Cookie.String
  rw [if_neg (by rw [hv]; decide)]
  simp only [String.append_assoc]
  exact append_ne_empty _ _ (name_ne_empty c.Name hv)

theorem tokenCookie_String (cfg : Config) (t : String)
    (hv : isCookieNameValid cfg.cookieName.data = true) :
    (tokenCookie cfg t).String =
      cfg.cookieName ++ "=" ++ sanitizeCookieValue t ++ "; Path=/" ++
        maxAgeAttr cfg.cookieMaxAge ++ "; HttpOnly" ++
        (if cfg.cookieSecure then "; Secure" else "") ++ sameSiteAttr cfg.cookieSameSite := by
  have hp : sanitizeCookiePath "/" = "/" := by decide
  have hl : 0 < "/".length := by decide
  unfold Cookie.String
  simp [tokenCookie, hv, expiresAttr, hp, hl]

theorem clearingCookie_String (cfg : Config)
    (hv : isCookieNameValid cfg.cookieName.data = true) :
    (clearingCookie cfg).String =
      cfg.cookieName ++ "=" ++ "; Path=/" ++ "; Expires=Thu, 01 Jan 1970 00:00:00 GMT" ++
        "; Max-Age=0" ++ "; HttpOnly" ++
        (if cfg.cookieSecure then "; Secure" else "") ++ sameSiteAttr cfg.cookieSameSite := by
  have hp : sanitizeCookiePath "/" = "/" := by decide
  have he : expiresAttr (some 0) = "; Expires=Thu, 01 Jan 1970 00:00:00 GMT" := by decide
  have hm : maxAgeAttr (-1) = "; Max-Age=0" := by decide
  have hs : sanitizeCookieValue "" = "" := by decide
  have hl : 0 < "/".length := by decide
  unfold Cookie.String
  simp [clearingCookie, hv, hp, he, hm, hs, hl]

/-! ## Credential injection and the outbound request -/

theorem Cookie_over_limit (m : Heap) (r : Request) (name : String)
    (hlim : defaultCookieMaxNum < cookieCount ((m.read r.Header).values "Cookie")) :
    r.Cookie m name = none := by
  unfold Request.Cookie readCookies
  by_cases hn : name = ""
  · simp [hn]
  · simp [hn, hlim]

/-- For a request whose Cookie header holds 3001 parts, the last of them `tok=secret`,
`r.Cookie` returns no cookie. -/
theorem over_limit_no_cookie (m : Heap) (r : Request) (name : String)
    (hsent : (m.read r.Header).values "Cookie" =
      [String.mk (List.replicate 3000 ';' ++ "tok=secret".data)]) :
    r.Cookie m name = none := by
  apply Cookie_over_limit
  rw [hsent]
  have hc : List.count ';' "tok=secret".data = 0 := by decide
  have hcount : List.count ';' (List.replicate 3000 ';' ++ "tok=secret".data) = 3000 := by
    rw [List.count_append, List.count_replicate_self, hc]
  unfold cookieCount defaultCookieMaxNum
  rw [List.map_cons, List.map_nil, List.sum_cons, List.sum_nil, hcount]
  exact Nat.lt_succ_self 3000

/-- C1, as stated, fails: a request carrying `tok=x; tok=y` carries a cookie of the configured
name with the non-empty value `y`, yet the outbound Authorization header is `Bearer x`. -/
theorem credential_injection_counterexample :
    ¬ (∀ c ∈ readCookies ((sampleHeap ["tok=x; tok=y"]).read (sampleRequest "GET" "/api").Header) "",
        c.Name = sampleConfig.cookieName → c.Value ≠ "" →
        ∃ q, (proxyHandler sampleConfig (sampleNet (some plainAnswer)) (sampleHeap ["tok=x; tok=y"])
              (sampleRequest "GET" "/api")).req = some q ∧
          ((proxyHandler sampleConfig (sampleNet (some plainAnswer)) (sampleHeap ["tok=x; tok=y"])
              (sampleRequest "GET" "/api")).heap.read
            q.Header).values "Authorization" = ["Bearer " ++ c.Value]) := by
  intro h
  obtain ⟨q, hq, hv⟩ := h { Name := "tok", Value := "y" } (by decide) (by decide) (by decide)
  have hq2 : (proxyHandler sampleConfig (sampleNet (some plainAnswer)) (sampleHeap ["tok=x; tok=y"])
      (sampleRequest "GET" "/api")).req =
      some { Method := "GET", URL := { Scheme := "http", Host := "backend:9000", Path := "/api" },
             Header := 1, Body := "payload" } := by decide
  rw [hq2] at hq
  cases hq
  revert hv
  decide

/-- C1, amended: when `http.NewRequest` succeeds, the outbound request exists and, if
`r.Cookie` returns a cookie with a non-empty value `v`, its Authorization header is exactly the
single value `"Bearer " + v`; if `r.Cookie` returns no cookie, or one with an empty value, the
outbound header map is the inbound one. For a non-empty configured name the cookie `r.Cookie`
returns is the first cookie of that name among those `readCookies` accepts from the Cookie
header lines, and it returns none when the lines hold more than 3000 parts. -/
theorem credential_injection (cfg : Config) (net : Net) (m : Heap) (r : Request)
    (hnew : net.newRequestFails r.Method (cfg.targetURL.ResolveReference r.URL) = false) :
    (cfg.cookieName ≠ "" →
      r.Cookie m cfg.cookieName =
        (readCookies (m.read r.Header) "").find? (fun c => c.Name == cfg.cookieName)) ∧
    (defaultCookieMaxNum < cookieCount ((m.read r.Header).values "Cookie") →
      r.Cookie m cfg.cookieName = none) ∧
    ∃ q, (proxyHandler cfg net m r).req = some q ∧
      (∀ c, r.Cookie m cfg.cookieName = some c → c.Value ≠ "" →
        ((proxyHandler cfg net m r).heap.read q.Header).values "Authorization" =
          ["Bearer " ++ c.Value]) ∧
      ((r.Cookie m cfg.cookieName = none ∨
          ∃ c, r.Cookie m cfg.cookieName = some c ∧ c.Value = "") →
        (proxyHandler cfg net m r).heap.read q.Header = m.read r.Header) := by
  obtain ⟨hq, hheap⟩ := proxyHandler_req cfg net m r hnew
  have hb := buildHeader_new cfg m r [LogEvent.inbound r.Method r.URL.Path]
  rw [buildHeader_ref] at hb
  refine ⟨Cookie_first m r cfg.cookieName, Cookie_over_limit m r cfg.cookieName, _, hq, ?_, ?_⟩
  · intro c hc hv
    rw [hheap, hb]
    simp [injected, hc, hv, values_Set]
  · intro hcase
    rw [hheap, hb]
    rcases hcase with hnone | ⟨c, hc, hv⟩
    · simp [injected, hnone]
    · simp [injected, hc, hv]

/-- A request with `tok=a\b; tok=z`, whose first part has an invalid value, is forwarded with
`Authorization: Bearer z`. -/
theorem credential_injection_witness :
    ((proxyHandler sampleConfig (sampleNet (some plainAnswer)) (sampleHeap ["tok=a\\b; tok=z"])
        (sampleRequest "GET" "/api")).heap.read
      1).values "Authorization" = ["Bearer z"] := by
  obtain ⟨_, _, q, hq, h1, _⟩ := credential_injection sampleConfig
    (sampleNet (some plainAnswer)) (sampleHeap ["tok=a\\b; tok=z"]) (sampleRequest "GET" "/api")
    (by decide)
  have hq2 : (proxyHandler sampleConfig (sampleNet (some plainAnswer))
      (sampleHeap ["tok=a\\b; tok=z"]) (sampleRequest "GET" "/api")).req =
      some { Method := "GET", URL := { Scheme := "http", Host := "backend:9000", Path := "/api" },
             Header := 1, Body := "payload" } := by decide
  rw [hq2] at hq
  cases hq
  exact h1 { Name := "tok", Value := "z" } (by decide) (by decide)

/-- C6: when `http.NewRequest` succeeds and the inbound header map is allocated, the outbound
request has the method and body of the inbound request, its header map agrees with the inbound
one on every key other than Authorization (so the Cookie header is forwarded), and no header map
that existed before, the inbound one included, is changed. -/
theorem outbound_request_frame (cfg : Config) (net : Net) (m : Heap) (r : Request)
    (hnew : net.newRequestFails r.Method (cfg.targetURL.ResolveReference r.URL) = false)
    (hr : r.Header < m.length) :
    ∃ q, (proxyHandler cfg net m r).req = some q ∧
      q.Method = r.Method ∧ q.Body = r.Body ∧
      (∀ key, key ≠ "Authorization" →
        ((proxyHandler cfg net m r).heap.read q.Header).values key =
          (m.read r.Header).values key) ∧
      (proxyHandler cfg net m r).heap.read r.Header = m.read r.Header ∧
      (∀ p, p < m.length → (proxyHandler cfg net m r).heap.read p = m.read p) := by
  obtain ⟨hq, hheap⟩ := proxyHandler_req cfg net m r hnew
  have hb := buildHeader_new cfg m r [LogEvent.inbound r.Method r.URL.Path]
  rw [buildHeader_ref] at hb
  refine ⟨_, hq, rfl, rfl, ?_, ?_, ?_⟩
  · intro key hkey
    rw [hheap, hb]
    unfold injected
    cases r.Cookie m cfg.cookieName with
    | none => rfl
    | some c => by_cases hv : c.Value = "" <;> simp [hv, values_Set, hkey]
  · rw [hheap]; exact buildHeader_old cfg m r _ r.Header hr
  · intro p hp
    rw [hheap]; exact buildHeader_old cfg m r _ p hp

/-- The sample request keeps its Cookie header on the way out and its own header map intact. -/
theorem outbound_request_frame_witness :
    (sampleRequest "GET" "/api").Header < (sampleHeap ["tok=x"]).length ∧
    (proxyHandler sampleConfig (sampleNet (some plainAnswer)) (sampleHeap ["tok=x"])
        (sampleRequest "GET" "/api")).heap.read 0 =
      (sampleHeap ["tok=x"]).read 0 := by
  refine ⟨by decide, ?_⟩
  obtain ⟨_, _, _, _, _, h, _⟩ := outbound_request_frame sampleConfig
    (sampleNet (some plainAnswer)) (sampleHeap ["tok=x"])
    (sampleRequest "GET" "/api") (by decide) (by decide)
  exact h


/-! ## Login and refresh -/

theorem filter_eq_self_of_all (p : Char → Bool) (l : List Char) (h : ∀ c ∈ l, p c = true) :
    l.filter p = l := List.filter_eq_self.mpr h

theorem sanitize_plain (t : String)
    (h : ∀ c ∈ t.data, validCookieValueByte c = true ∧ c ≠ ' ' ∧ c ≠ ',') :
    sanitizeCookieValue t = t := by
  have hk : keptValueBytes t = t.data :=
    filter_eq_self_of_all _ _ (fun c hc => (h c hc).1)
  unfold sanitizeCookieValue
  rw [hk]
  by_cases he : t.data = []
  · rw [if_pos he]
    exact String.ext he.symm
  · rw [if_neg he]
    have hany : t.data.any (fun c => c = ' ' || c = ',') = false := by
      rw [List.any_eq_false]
      intro c hc
      have := h c hc
      simp [this.2.1, this.2.2]
    rw [hany]
    rfl

/-- C2, as stated, fails: for the token `a;b` the client gets the cookie value `ab`, and with
the configured cookie name `my cookie` the client gets no Set-Cookie line from the proxy, only
the upstream `lang=en`. -/
theorem login_success_shaping_counterexample :
    (sampleNet (some oddTokenAnswer)).Decode oddTokenAnswer.Body =
      some [("accessToken", JSONValue.string "a;b")] ∧
    (sampleNet (some oddTokenAnswer)).Do "POST"
        (sampleConfig.targetURL.ResolveReference (sampleRequest "POST" "/login").URL)
        (injected sampleConfig (sampleHeap []) (sampleRequest "POST" "/login")
          ((sampleHeap []).read 0)) "payload" = some oddTokenAnswer ∧
    (proxyHandler sampleConfig (sampleNet (some oddTokenAnswer)) (sampleHeap [])
        (sampleRequest "POST" "/login")).w.header.values "Set-Cookie" =
      ["tok=ab; Path=/; Max-Age=3600; HttpOnly; Secure; SameSite=Strict"] ∧
    (sampleNet (some loginAnswer)).Decode loginAnswer.Body =
      some [("accessToken", JSONValue.string "tok123")] ∧
    (proxyHandler spacedNameConfig (sampleNet (some loginAnswer)) (sampleHeap [])
        (sampleRequest "POST" "/login")).w.header.values "Set-Cookie" = ["lang=en"] := by
  refine ⟨by rfl, by decide, by decide, by rfl, by decide⟩

/-- C2, amended: on the login or refresh path, when the request is built and `Do` answers it
with media type `application/json` and a body that decodes to an object whose token property
is the string `t`, the client gets the upstream status, every upstream header other than
Content-Length, no Content-Length and an empty body. When the configured cookie name is a valid
cookie name, the first Set-Cookie line is the proxy's: the name, the value `t` without the bytes
that are invalid in a cookie value (quoted when a space or comma is left; `t` itself when it has
neither such bytes nor spaces nor commas), `Path=/`, Max-Age as net/http writes the configured
max-age, `HttpOnly`, the configured Secure and SameSite; the upstream Set-Cookie lines follow.
When the name is not valid, the Set-Cookie lines are the upstream ones only. -/
theorem login_success_shaping (cfg : Config) (net : Net) (m : Heap) (r : Request)
    (resp : Response) (obj : List (String × JSONValue)) (t : String)
    (hnew : net.newRequestFails r.Method (cfg.targetURL.ResolveReference r.URL) = false)
    (hdo : net.Do r.Method (cfg.targetURL.ResolveReference r.URL)
      (injected cfg m r (m.read r.Header)) r.Body = some resp)
    (hpath : r.URL.Path = cfg.loginPath ∨ r.URL.Path = cfg.refreshPath)
    (hct : net.ParseMediaType (resp.Header.Get "Content-Type") = some "application/json")
    (hdec : net.Decode resp.Body = some obj)
    (htok : obj.lookup cfg.accessTokenProperty = some (JSONValue.string t)) :
    (proxyHandler cfg net m r).w.status = some resp.StatusCode ∧
    (isCookieNameValid cfg.cookieName.data = true →
      (proxyHandler cfg net m r).w.header.values "Set-Cookie" =
        (cfg.cookieName ++ "=" ++ sanitizeCookieValue t ++ "; Path=/" ++
          maxAgeAttr cfg.cookieMaxAge ++ "; HttpOnly" ++
          (if cfg.cookieSecure then "; Secure" else "") ++ sameSiteAttr cfg.cookieSameSite) ::
        resp.Header.values "Set-Cookie") ∧
    (isCookieNameValid cfg.cookieName.data = false →
      (proxyHandler cfg net m r).w.header.values "Set-Cookie" =
        resp.Header.values "Set-Cookie") ∧
    ((∀ c ∈ t.data, validCookieValueByte c = true ∧ c ≠ ' ' ∧ c ≠ ',') →
      sanitizeCookieValue t = t) ∧
    (∀ key, key ≠ "Content-Length" → key ≠ "Set-Cookie" →
      (proxyHandler cfg net m r).w.header.values key = resp.Header.values key) ∧
    (proxyHandler cfg net m r).w.header.values "Content-Length" = [] ∧
    (proxyHandler cfg net m r).w.body = "" ∧
    (proxyHandler cfg net m r).w.cookiesSet =
      [{ Name := cfg.cookieName, Value := t, Path := "/", HttpOnly := true,
         Secure := cfg.cookieSecure, SameSite := cfg.cookieSameSite,
         MaxAge := cfg.cookieMaxAge, Expires := none }] := by
  have hresp := proxyHandler_do cfg net m r resp hnew hdo
  obtain ⟨log, hw, _, _⟩ := proxyHandler_resp cfg net m r resp hresp
  have htok2 : asString (obj.lookup cfg.accessTokenProperty) = some t := by rw [htok]; rfl
  rw [hw, shape_token cfg net r resp {} log obj t ⟨hpath, hct⟩ hdec htok2]
  obtain ⟨c1, c2, c3⟩ :=
    copyHeadersExceptContentLength_rest (SetCookie {} (tokenCookie cfg t)) resp.Header
  obtain ⟨s1, s2, s3⟩ := SetCookie_rest {} (tokenCookie cfg t)
  obtain ⟨w1, w2, w3, w4⟩ := WriteHeader_fresh
    (copyHeadersExceptContentLength (SetCookie {} (tokenCookie cfg t)) resp.Header)
    resp.StatusCode (by rw [c1, s1])
  refine ⟨w1, ?_, ?_, sanitize_plain t, ?_, ?_, ?_, ?_⟩
  · intro hv
    have hne := Cookie_String_ne_empty (tokenCookie cfg t) hv
    rw [w2, copyHeadersExceptContentLength_header, SetCookie_header,
      ← tokenCookie_String cfg t hv]
    simp [Header.values, hne]
  · intro hv
    have he := Cookie_String_invalid (tokenCookie cfg t) hv
    rw [w2, copyHeadersExceptContentLength_header, SetCookie_header]
    simp [Header.values, he]
  · intro key h1 h2
    rw [w2, copyHeadersExceptContentLength_header, SetCookie_header]
    simp [h1, h2, Header.values]
  · rw [w2, copyHeadersExceptContentLength_header, SetCookie_header]
    simp [Header.values]
  · rw [w3, c2, s2]
  · rw [w4, c3, s3]; rfl

/-- The sample login answer `{"accessToken":"tok123"}` with `application/json; charset=utf-8`
puts `tok=tok123` before the upstream `lang=en`. -/
theorem login_success_shaping_witness :
    (proxyHandler sampleConfig (sampleNet (some loginAnswer)) (sampleHeap [])
        (sampleRequest "POST" "/login")).w.header.values "Set-Cookie" =
      ["tok=tok123; Path=/; Max-Age=3600; HttpOnly; Secure; SameSite=Strict", "lang=en"] :=
  ((login_success_shaping sampleConfig (sampleNet (some loginAnswer)) (sampleHeap [])
    (sampleRequest "POST" "/login") loginAnswer
    [("accessToken", JSONValue.string "tok123")] "tok123"
    (by decide) (by decide) (by decide) (by decide) (by rfl) (by rfl)).2.1 (by decide)).trans
    (by decide)

/-- C3, as stated, fails: the sample answer on the login path has media type
`application/json` and the body `{"other":"x"}`, which decodes to an object without the token
property, and it carries the upstream header `Set-Cookie: lang=en`; the client response has that
Set-Cookie header. And the body `{"accessToken":"tok123"} trailing`, which as a whole is not a
JSON object, decodes, so that the token cookie is set. -/
theorem login_soft_failure_counterexample :
    isTokenResponse sampleConfig (sampleNet (some otherAnswer)) (sampleRequest "POST" "/login")
      otherAnswer ∧
    (sampleNet (some otherAnswer)).Decode otherAnswer.Body =
      some [("other", JSONValue.string "x")] ∧
    asString (List.lookup sampleConfig.accessTokenProperty [("other", JSONValue.string "x")]) =
      none ∧
    (sampleNet (some otherAnswer)).Do "POST"
        (sampleConfig.targetURL.ResolveReference (sampleRequest "POST" "/login").URL)
        (injected sampleConfig (sampleHeap []) (sampleRequest "POST" "/login")
          ((sampleHeap []).read 0)) "payload" = some otherAnswer ∧
    (proxyHandler sampleConfig (sampleNet (some otherAnswer)) (sampleHeap [])
        (sampleRequest "POST" "/login")).w.header.values "Set-Cookie" = ["lang=en"] ∧
    (proxyHandler sampleConfig (sampleNet (some trailingAnswer)) (sampleHeap [])
        (sampleRequest "POST" "/login")).w.header.values "Set-Cookie" =
      ["tok=tok123; Path=/; Max-Age=3600; HttpOnly; Secure; SameSite=Strict"] := by
  refine ⟨by decide, by rfl, by rfl, by decide, by decide, by decide⟩

/-- C3, amended: on the login or refresh path, when the request is built and `Do` answers it
with media type `application/json`, and `Decode` returns an error on the body, or the decoded
object has no token property or one that is not a string, the proxy sets no cookie: the
Set-Cookie lines of the client response are exactly the upstream ones, as is every header other
than Content-Length, which is absent; the status is the upstream status and the body is
empty. -/
theorem login_soft_failure (cfg : Config) (net : Net) (m : Heap) (r : Request)
    (resp : Response)
    (hnew : net.newRequestFails r.Method (cfg.targetURL.ResolveReference r.URL) = false)
    (hdo : net.Do r.Method (cfg.targetURL.ResolveReference r.URL)
      (injected cfg m r (m.read r.Header)) r.Body = some resp)
    (hpath : r.URL.Path = cfg.loginPath ∨ r.URL.Path = cfg.refreshPath)
    (hct : net.ParseMediaType (resp.Header.Get "Content-Type") = some "application/json")
    (hfail : net.Decode resp.Body = none ∨
      ∃ obj, net.Decode resp.Body = some obj ∧
        ∀ s, obj.lookup cfg.accessTokenProperty ≠ some (JSONValue.string s)) :
    (proxyHandler cfg net m r).w.cookiesSet = [] ∧
    (∀ key, key ≠ "Content-Length" →
      (proxyHandler cfg net m r).w.header.values key = resp.Header.values key) ∧
    (proxyHandler cfg net m r).w.header.values "Content-Length" = [] ∧
    (proxyHandler cfg net m r).w.status = some resp.StatusCode ∧
    (proxyHandler cfg net m r).w.body = "" := by
  have hresp := proxyHandler_do cfg net m r resp hnew hdo
  obtain ⟨log, hw, _, _⟩ := proxyHandler_resp cfg net m r resp hresp
  have hfail2 : net.Decode resp.Body = none ∨
      ∃ obj, net.Decode resp.Body = some obj ∧
        asString (obj.lookup cfg.accessTokenProperty) = none := by
    rcases hfail with h | ⟨obj, hdec, hno⟩
    · exact Or.inl h
    · refine Or.inr ⟨obj, hdec, ?_⟩
      cases hl : obj.lookup cfg.accessTokenProperty with
      | none => rfl
      | some v =>
        cases v with
        | string s => exact absurd hl (hno s)
        | _ => rfl
  obtain ⟨e, hs, _⟩ := shape_soft cfg net r resp {} log ⟨hpath, hct⟩ hfail2
  rw [hw, hs]
  obtain ⟨c1, c2, c3⟩ := copyHeadersExceptContentLength_rest {} resp.Header
  obtain ⟨w1, w2, w3, w4⟩ := WriteHeader_fresh
    (copyHeadersExceptContentLength {} resp.Header) resp.StatusCode (by rw [c1])
  refine ⟨by rw [w4, c3], ?_, ?_, w1, by rw [w3, c2]⟩
  · intro key h1
    rw [w2, copyHeadersExceptContentLength_header]
    simp [h1, Header.values]
  · rw [w2, copyHeadersExceptContentLength_header]
    simp [Header.values]

/-- The sample login answer `{"other":"x"}` gives the client the upstream Set-Cookie line only,
the upstream status and an empty body. -/
theorem login_soft_failure_witness :
    (proxyHandler sampleConfig (sampleNet (some otherAnswer)) (sampleHeap [])
        (sampleRequest "POST" "/login")).w.header.values "Set-Cookie" = ["lang=en"] ∧
    (proxyHandler sampleConfig (sampleNet (some otherAnswer)) (sampleHeap [])
        (sampleRequest "POST" "/login")).w.status = some 200 ∧
    (proxyHandler sampleConfig (sampleNet (some otherAnswer)) (sampleHeap [])
        (sampleRequest "POST" "/login")).w.body = "" := by
  have h := login_soft_failure sampleConfig (sampleNet (some otherAnswer)) (sampleHeap [])
    (sampleRequest "POST" "/login") otherAnswer (by decide) (by decide) (by decide) (by decide)
    (Or.inr ⟨[("other", JSONValue.string "x")], by rfl, by
      intro s hs
      simp [sampleConfig, List.lookup] at hs⟩)
  exact ⟨h.2.1 "Set-Cookie" (by decide), h.2.2.2.1, h.2.2.2.2⟩

/-! ## Logout and passthrough -/

/-- C4, as stated, fails: with the logout path configured equal to the login path, a request on
that path answered with JSON is shaped as a login: the body is dropped, Content-Length is not
copied and the cookie set is the token cookie, not a clearing one. And with the configured
cookie name `my cookie` a logout adds no Set-Cookie line at all. -/
theorem logout_shaping_counterexample :
    (sampleRequest "POST" "/login").URL.Path = sharedPathConfig.logoutPath ∧
    (sampleNet (some loginAnswer)).Do "POST"
        (sharedPathConfig.targetURL.ResolveReference (sampleRequest "POST" "/login").URL)
        (injected sharedPathConfig (sampleHeap []) (sampleRequest "POST" "/login")
          ((sampleHeap []).read 0)) "payload" = some loginAnswer ∧
    loginAnswer.Body ≠ "" ∧
    (proxyHandler sharedPathConfig (sampleNet (some loginAnswer)) (sampleHeap [])
        (sampleRequest "POST" "/login")).w.body = "" ∧
    loginAnswer.Header.values "Content-Length" = ["24"] ∧
    (proxyHandler sharedPathConfig (sampleNet (some loginAnswer)) (sampleHeap [])
        (sampleRequest "POST" "/login")).w.header.values "Content-Length" = [] ∧
    (proxyHandler sharedPathConfig (sampleNet (some loginAnswer)) (sampleHeap [])
        (sampleRequest "POST" "/login")).w.header.values "Set-Cookie" =
      ["tok=tok123; Path=/; Max-Age=3600; HttpOnly; Secure; SameSite=Strict", "lang=en"] ∧
    (sampleRequest "POST" "/logout").URL.Path = spacedNameConfig.logoutPath ∧
    (proxyHandler spacedNameConfig (sampleNet (some plainAnswer)) (sampleHeap [])
        (sampleRequest "POST" "/logout")).w.header.values "Set-Cookie" = [] := by
  refine ⟨by decide, by decide, by decide, by decide, by decide, by decide, by decide,
    by decide, by decide⟩

/-- C4, amended: on the logout path, when the request is built and `Do` answers it, unless the
request is shaped as a login (its path is also the login or refresh path and the upstream media
type is `application/json`), the client gets the upstream status, every upstream header with
all its values (Content-Length included) and the upstream body. When the configured cookie name
is a valid cookie name, one Set-Cookie line is added after the upstream ones: the name with an
empty value, `Path=/`, `Expires=Thu, 01 Jan 1970 00:00:00 GMT`, `Max-Age=0` (the cookie has
MaxAge -1), `HttpOnly`, the configured Secure and SameSite. When the name is not valid, no line
is added. -/
theorem logout_shaping (cfg : Config) (net : Net) (m : Heap) (r : Request) (resp : Response)
    (hnew : net.newRequestFails r.Method (cfg.targetURL.ResolveReference r.URL) = false)
    (hdo : net.Do r.Method (cfg.targetURL.ResolveReference r.URL)
      (injected cfg m r (m.read r.Header)) r.Body = some resp)
    (hpath : r.URL.Path = cfg.logoutPath)
    (hnot : ¬ ((r.URL.Path = cfg.loginPath ∨ r.URL.Path = cfg.refreshPath) ∧
      net.ParseMediaType (resp.Header.Get "Content-Type") = some "application/json")) :
    (proxyHandler cfg net m r).w.status = some resp.StatusCode ∧
    (∀ key, key ≠ "Set-Cookie" →
      (proxyHandler cfg net m r).w.header.values key = resp.Header.values key) ∧
    (isCookieNameValid cfg.cookieName.data = true →
      (proxyHandler cfg net m r).w.header.values "Set-Cookie" =
        resp.Header.values "Set-Cookie" ++
          [cfg.cookieName ++ "=" ++ "; Path=/" ++ "; Expires=Thu, 01 Jan 1970 00:00:00 GMT" ++
            "; Max-Age=0" ++ "; HttpOnly" ++
            (if cfg.cookieSecure then "; Secure" else "") ++ sameSiteAttr cfg.cookieSameSite]) ∧
    (isCookieNameValid cfg.cookieName.data = false →
      (proxyHandler cfg net m r).w.header.values "Set-Cookie" =
        resp.Header.values "Set-Cookie") ∧
    (proxyHandler cfg net m r).w.cookiesSet =
      [{ Name := cfg.cookieName, Value := "", Path := "/", HttpOnly := true,
         Secure := cfg.cookieSecure, SameSite := cfg.cookieSameSite,
         MaxAge := -1, Expires := some 0 }] ∧
    (proxyHandler cfg net m r).w.body = resp.Body := by
  have hresp := proxyHandler_do cfg net m r resp hnew hdo
  obtain ⟨log, hw, _, _⟩ := proxyHandler_resp cfg net m r resp hresp
  rw [hw, shape_logout cfg net r resp {} log hnot hpath]
  obtain ⟨c1, c2, c3⟩ := copyHeaders_rest {} resp.Header
  obtain ⟨s1, s2, s3⟩ := SetCookie_rest (copyHeaders {} resp.Header) (clearingCookie cfg)
  obtain ⟨w1, w2, w3, w4⟩ := WriteHeader_fresh
    (SetCookie (copyHeaders {} resp.Header) (clearingCookie cfg)) resp.StatusCode
    (by rw [s1, c1])
  obtain ⟨b1, b2, b3, b4⟩ := Write_after _ resp.Body resp.StatusCode w1
  refine ⟨b1, ?_, ?_, ?_, ?_, ?_⟩
  · intro key hk
    rw [b2, w2, SetCookie_header, copyHeaders_header]
    simp [hk, Header.values]
  · intro hv
    have hne := Cookie_String_ne_empty (clearingCookie cfg) hv
    rw [b2, w2, SetCookie_header, copyHeaders_header, ← clearingCookie_String cfg hv]
    simp [Header.values, hne]
  · intro hv
    have he := Cookie_String_invalid (clearingCookie cfg) hv
    rw [b2, w2, SetCookie_header, copyHeaders_header]
    simp [Header.values, he]
  · rw [b4, w4, s3, c3]; rfl
  · rw [b3, w3, s2, c2]; exact empty_append resp.Body

/-- The sample logout is passed through with the clearing Set-Cookie line appended. -/
theorem logout_shaping_witness :
    (proxyHandler sampleConfig (sampleNet (some plainAnswer)) (sampleHeap [])
        (sampleRequest "POST" "/logout")).w.body = "not found" ∧
    (proxyHandler sampleConfig (sampleNet (some plainAnswer)) (sampleHeap [])
        (sampleRequest "POST" "/logout")).w.header.values "Set-Cookie" =
      ["tok=; Path=/; Expires=Thu, 01 Jan 1970 00:00:00 GMT; Max-Age=0; HttpOnly; Secure; " ++
        "SameSite=Strict"] := by
  have h := logout_shaping sampleConfig (sampleNet (some plainAnswer)) (sampleHeap [])
    (sampleRequest "POST" "/logout") plainAnswer (by decide) (by decide) (by decide) (by decide)
  exact ⟨h.2.2.2.2.2, (h.2.2.1 (by decide)).trans (by decide)⟩

/-- C5: when the request is built, `Do` answers it, the path is not the logout path and the
request is not shaped as a login (its path is neither the login nor the refresh path, or the
upstream Content-Type is missing, on which `mime.ParseMediaType` fails, or
`mime.ParseMediaType` fails on it or yields another media type), the client response is the
upstream response: same status, every key with every value (Content-Length included), same
body, and the proxy sets no cookie. -/
theorem default_passthrough (cfg : Config) (net : Net) (m : Heap) (r : Request)
    (resp : Response)
    (hnew : net.newRequestFails r.Method (cfg.targetURL.ResolveReference r.URL) = false)
    (hdo : net.Do r.Method (cfg.targetURL.ResolveReference r.URL)
      (injected cfg m r (m.read r.Header)) r.Body = some resp)
    (hpath : r.URL.Path ≠ cfg.logoutPath)
    (hcase : ¬ (r.URL.Path = cfg.loginPath ∨ r.URL.Path = cfg.refreshPath) ∨
      (resp.Header.values "Content-Type" = [] ∧ net.ParseMediaType "" = none) ∨
      net.ParseMediaType (resp.Header.Get "Content-Type") ≠ some "application/json") :
    (proxyHandler cfg net m r).w.status = some resp.StatusCode ∧
    (∀ key, (proxyHandler cfg net m r).w.header.values key = resp.Header.values key) ∧
    (proxyHandler cfg net m r).w.body = resp.Body ∧
    (proxyHandler cfg net m r).w.cookiesSet = [] := by
  have hresp := proxyHandler_do cfg net m r resp hnew hdo
  obtain ⟨log, hw, _, _⟩ := proxyHandler_resp cfg net m r resp hresp
  have hnot : ¬ isTokenResponse cfg net r resp := by
    intro hb
    rcases hcase with h | ⟨hmiss, hnone⟩ | h
    · exact h hb.1
    · have hget : resp.Header.Get "Content-Type" = "" := by
        unfold Header.Get
        rw [hmiss]
      have := hb.2
      rw [hget, hnone] at this
      exact Option.noConfusion this
    · exact h hb.2
  rw [hw, shape_default cfg net r resp {} log hnot hpath]
  obtain ⟨c1, c2, c3⟩ := copyHeaders_rest {} resp.Header
  obtain ⟨w1, w2, w3, w4⟩ := WriteHeader_fresh (copyHeaders {} resp.Header) resp.StatusCode
    (by rw [c1])
  obtain ⟨b1, b2, b3, b4⟩ := Write_after _ resp.Body resp.StatusCode w1
  refine ⟨b1, ?_, ?_, ?_⟩
  · intro key
    rw [b2, w2, copyHeaders_header]
    simp [Header.values]
  · rw [b3, w3, c2]; exact empty_append resp.Body
  · rw [b4, w4, c3]

/-- A login answer that is not JSON is passed through unchanged. -/
theorem default_passthrough_witness :
    (proxyHandler sampleConfig (sampleNet (some plainAnswer)) (sampleHeap [])
        (sampleRequest "POST" "/login")).w.status = some 404 ∧
    (proxyHandler sampleConfig (sampleNet (some plainAnswer)) (sampleHeap [])
        (sampleRequest "POST" "/login")).w.header.values "Content-Length" = ["9"] ∧
    (proxyHandler sampleConfig (sampleNet (some plainAnswer)) (sampleHeap [])
        (sampleRequest "POST" "/login")).w.body = "not found" := by
  have h := default_passthrough sampleConfig (sampleNet (some plainAnswer)) (sampleHeap [])
    (sampleRequest "POST" "/login") plainAnswer (by decide) (by decide) (by decide)
    (Or.inr (Or.inr (by decide)))
  exact ⟨h.1, h.2.1 "Content-Length", h.2.2.1⟩

/-! ## Target resolution -/

theorem setPath_fields (u : URL) (p : String) :
    (u.setPath p).Scheme = u.Scheme ∧ (u.setPath p).Host = u.Host ∧
      (u.setPath p).RawQuery = u.RawQuery := by
  unfold URL.setPath
  cases unescapePath p.data <;> simp

theorem resolve_origin_form (u ref : URL) (hs : ref.Scheme = "") (hh : ref.Host = "")
    (hu : ref.User = none) (ho : ref.Opaque = "") (hp : ref.Path ≠ "") :
    (u.ResolveReference ref).Scheme = u.Scheme ∧ (u.ResolveReference ref).Host = u.Host ∧
      (u.ResolveReference ref).RawQuery = ref.RawQuery := by
  unfold URL.ResolveReference
  simp only [hs, hh, hu, ho, hp, ne_eq, not_true_eq_false, or_self, if_false, if_true,
    false_and]
  obtain ⟨h1, h2, h3⟩ := setPath_fields
    { Scheme := u.Scheme, Opaque := "", User := u.User, Host := u.Host,
      Path := ref.Path, RawPath := ref.RawPath, ForceQuery := ref.ForceQuery,
      RawQuery := ref.RawQuery, Fragment := ref.Fragment }
    (resolvePath u.EscapedPath ref.EscapedPath)
  exact ⟨h1, h2, h3⟩

/-- A request for `/log%69n` has the decoded path `/login`, which is what line 167 compares,
and is forwarded with the path it came with. -/
theorem escaped_path_forwarded :
    (sampleConfig.targetURL.ResolveReference
      { Path := "/login", RawPath := "/log%69n" }).Path = "/login" ∧
    (sampleConfig.targetURL.ResolveReference
      { Path := "/login", RawPath := "/log%69n" }).EscapedPath = "/log%69n" := by
  refine ⟨by decide, by decide⟩

/-- C7 at the request line `GET http://evil.example/x HTTP/1.1`: the resolved URL keeps the
scheme and host of the inbound URL, and the outbound request, bearer token included, is
addressed to `evil.example` although the configured target is `backend:9000`. -/
theorem target_resolution_absolute_form :
    sampleConfig.targetURL.Host = "backend:9000" ∧
    (sampleConfig.targetURL.ResolveReference absoluteRequest.URL).Host = "evil.example" ∧
    (proxyHandler sampleConfig (sampleNet none) (sampleHeap ["tok=secret"])
        absoluteRequest).req =
      some { Method := "GET", URL := { Scheme := "http", Host := "evil.example", Path := "/x" },
             Header := 1, Body := "" } ∧
    ((proxyHandler sampleConfig (sampleNet none) (sampleHeap ["tok=secret"])
        absoluteRequest).heap.read
      1).values "Authorization" = ["Bearer secret"] := by
  refine ⟨by decide, by decide, by decide, by decide⟩

/-! ## Upstream failure -/

theorem httpError_fresh (error : String) (code : Nat) :
    (httpError {} error code).status = some code ∧
      (httpError {} error code).body = error ++ "\n" ∧
      (httpError {} error code).cookiesSet = [] ∧
      (httpError {} error code).header =
        [("X-Content-Type-Options", ["nosniff"]), ("Content-Type", ["text/plain; charset=utf-8"])] := by
  refine ⟨rfl, ?_, rfl, rfl⟩
  show "" ++ (error ++ "\n") = error ++ "\n"
  exact empty_append _

/-- C8: for every request, if `http.NewRequest` fails the client gets status 500 with the body
`Failed to create request`, and if the request is built and `Do` fails on it the client gets
status 502 with the body `Failed to reach backend`; in both cases the response carries no
cookie set by the proxy, no Set-Cookie header, and no header besides the two of `http.Error`
(Content-Type `text/plain; charset=utf-8` and X-Content-Type-Options), so nothing of an
upstream response. -/
theorem upstream_failure (cfg : Config) (net : Net) (m : Heap) (r : Request) :
    (net.newRequestFails r.Method (cfg.targetURL.ResolveReference r.URL) = true →
      (proxyHandler cfg net m r).w.status = some 500 ∧
      (proxyHandler cfg net m r).w.body = "Failed to create request\n" ∧
      (proxyHandler cfg net m r).w.cookiesSet = [] ∧
      (proxyHandler cfg net m r).w.header.values "Set-Cookie" = [] ∧
      (proxyHandler cfg net m r).w.header.values "Content-Type" =
        ["text/plain; charset=utf-8"] ∧
      (∀ key, key ≠ "Content-Type" → key ≠ "X-Content-Type-Options" →
        (proxyHandler cfg net m r).w.header.values key = [])) ∧
    (net.newRequestFails r.Method (cfg.targetURL.ResolveReference r.URL) = false →
      net.Do r.Method (cfg.targetURL.ResolveReference r.URL)
        (injected cfg m r (m.read r.Header)) r.Body = none →
      (proxyHandler cfg net m r).w.status = some 502 ∧
      (proxyHandler cfg net m r).w.body = "Failed to reach backend\n" ∧
      (proxyHandler cfg net m r).w.cookiesSet = [] ∧
      (proxyHandler cfg net m r).w.header.values "Set-Cookie" = [] ∧
      (proxyHandler cfg net m r).w.header.values "Content-Type" =
        ["text/plain; charset=utf-8"] ∧
      (∀ key, key ≠ "Content-Type" → key ≠ "X-Content-Type-Options" →
        (proxyHandler cfg net m r).w.header.values key = [])) := by
  have hvals : ∀ (error : String) (code : Nat),
      (httpError {} error code).header.values "Set-Cookie" = [] ∧
      (httpError {} error code).header.values "Content-Type" = ["text/plain; charset=utf-8"] ∧
      (∀ key, key ≠ "Content-Type" → key ≠ "X-Content-Type-Options" →
        (httpError {} error code).header.values key = []) := by
    intro error code
    rw [(httpError_fresh error code).2.2.2]
    refine ⟨by decide, by decide, ?_⟩
    intro key h1 h2
    rw [values_cons_ne _ _ _ _ h2, values_cons_ne _ _ _ _ h1]
    rfl
  constructor
  · intro hnew
    obtain ⟨_, _, _, hw⟩ := proxyHandler_fail_new cfg net m r hnew
    obtain ⟨e1, e2, e3, _⟩ := httpError_fresh "Failed to create request" StatusInternalServerError
    obtain ⟨v1, v2, v3⟩ := hvals "Failed to create request" StatusInternalServerError
    rw [hw]
    exact ⟨e1, by rw [e2]; decide, e3, v1, v2, v3⟩
  · intro hnew hdo
    obtain ⟨hq, _⟩ := proxyHandler_req cfg net m r hnew
    have hresp := proxyHandler_do_none cfg net m r hnew hdo
    have hw := proxyHandler_fail_do cfg net m r _ hq hresp
    obtain ⟨e1, e2, e3, _⟩ := httpError_fresh "Failed to reach backend" StatusBadGateway
    obtain ⟨v1, v2, v3⟩ := hvals "Failed to reach backend" StatusBadGateway
    rw [hw]
    exact ⟨e1, by rw [e2]; decide, e3, v1, v2, v3⟩

/-- An unreachable upstream gives 502 without a cookie on the logout path, and a request that
cannot be built gives 500. -/
theorem upstream_failure_witness :
    ((proxyHandler sampleConfig (sampleNet none) (sampleHeap ["tok=x"])
        (sampleRequest "POST" "/logout")).w.status = some 502 ∧
      (proxyHandler sampleConfig (sampleNet none) (sampleHeap ["tok=x"])
        (sampleRequest "POST" "/logout")).w.header.values "Set-Cookie" = []) ∧
    (proxyHandler sampleConfig (sampleNet none) (sampleHeap [])
        (sampleRequest "BAD METHOD" "/login")).w.status = some 500 := by
  have h1 := (upstream_failure sampleConfig (sampleNet none) (sampleHeap ["tok=x"])
    (sampleRequest "POST" "/logout")).2 (by decide) (by decide)
  have h2 := (upstream_failure sampleConfig (sampleNet none) (sampleHeap [])
    (sampleRequest "BAD METHOD" "/login")).1 (by decide)
  exact ⟨⟨h1.1, h1.2.2.2.1⟩, h2.1⟩

/-! ## One shaping branch per request -/

theorem branch_none_of_pre (log : List LogEvent)
    (h1 : ∀ e ∈ log, ∀ p s, e ≠ LogEvent.sentEmpty p s)
    (h2 : ∀ e ∈ log, ∀ p c, e ≠ LogEvent.clearedCookie p c)
    (h3 : ∀ e ∈ log, ∀ a b s, e ≠ LogEvent.proxied a b s) :
    log.filterMap LogEvent.branch = [] := by
  rw [List.filterMap_eq_nil_iff]
  intro e he
  cases e with
  | sentEmpty p s => exact absurd rfl (h1 _ he p s)
  | clearedCookie p c => exact absurd rfl (h2 _ he p c)
  | proxied a b s => exact absurd rfl (h3 _ he a b s)
  | _ => rfl

/-- C9: for every configuration, request and upstream response, the handler completes exactly
one shaping branch: the login branch exactly when the path is the login or refresh path and the
media type is `application/json`, otherwise the logout branch exactly when the path is the
logout path, otherwise passthrough. The proxy sets at most one cookie, always under the
configured name: in the login branch none or one token cookie, in the logout branch the clearing
cookie, in passthrough none; a token cookie is never the clearing cookie. -/
theorem one_shaping_branch (cfg : Config) (net : Net) (m : Heap) (r : Request)
    (resp : Response) (hresp : (proxyHandler cfg net m r).resp = some resp) :
    ∃ b, (proxyHandler cfg net m r).log.filterMap LogEvent.branch = [b] ∧
      (b = Branch.LoginShaped ↔
        ((r.URL.Path = cfg.loginPath ∨ r.URL.Path = cfg.refreshPath) ∧
          net.ParseMediaType (resp.Header.Get "Content-Type") = some "application/json")) ∧
      (b = Branch.LogoutShaped ↔
        (¬ ((r.URL.Path = cfg.loginPath ∨ r.URL.Path = cfg.refreshPath) ∧
            net.ParseMediaType (resp.Header.Get "Content-Type") = some "application/json") ∧
          r.URL.Path = cfg.logoutPath)) ∧
      (b = Branch.LoginShaped →
        (proxyHandler cfg net m r).w.cookiesSet = [] ∨
        ∃ t, (proxyHandler cfg net m r).w.cookiesSet = [tokenCookie cfg t]) ∧
      (b = Branch.LogoutShaped →
        (proxyHandler cfg net m r).w.cookiesSet = [clearingCookie cfg]) ∧
      (b = Branch.Passthrough → (proxyHandler cfg net m r).w.cookiesSet = []) ∧
      (proxyHandler cfg net m r).w.cookiesSet.length ≤ 1 ∧
      (∀ c ∈ (proxyHandler cfg net m r).w.cookiesSet, c.Name = cfg.cookieName) ∧
      (∀ t, tokenCookie cfg t ≠ clearingCookie cfg) := by
  obtain ⟨log, hw, hl, p1, p2, p3, _⟩ := proxyHandler_resp cfg net m r resp hresp
  have hpre := branch_none_of_pre log p1 p2 p3
  have hne : ∀ t, tokenCookie cfg t ≠ clearingCookie cfg := by
    intro t h
    have := congrArg Cookie.Expires h
    simp [tokenCookie, clearingCookie] at this
  by_cases hb : isTokenResponse cfg net r resp
  · have hcookies : (proxyHandler cfg net m r).log.filterMap LogEvent.branch =
          [Branch.LoginShaped] ∧
        ((proxyHandler cfg net m r).w.cookiesSet = [] ∨
          ∃ t, (proxyHandler cfg net m r).w.cookiesSet = [tokenCookie cfg t]) := by
      cases hdec : net.Decode resp.Body with
      | none =>
        obtain ⟨e, hs, q1, q2, q3⟩ := shape_soft cfg net r resp {} log hb (Or.inl hdec)
        obtain ⟨_, _, c3⟩ := copyHeadersExceptContentLength_rest {} resp.Header
        obtain ⟨_, _, _, w4⟩ := WriteHeader_fresh
          (copyHeadersExceptContentLength {} resp.Header) resp.StatusCode (by simp [*])
        have he : LogEvent.branch e = none := by
          cases e with
          | sentEmpty p s => exact absurd rfl (q1 p s)
          | clearedCookie p c => exact absurd rfl (q2 p c)
          | proxied a b s => exact absurd rfl (q3 a b s)
          | _ => rfl
        rw [hl, hw, hs]
        refine ⟨?_, Or.inl (by rw [w4, c3])⟩
        simp [List.filterMap_append, hpre, he, LogEvent.branch]
      | some obj =>
        cases htok : asString (obj.lookup cfg.accessTokenProperty) with
        | none =>
          obtain ⟨e, hs, q1, q2, q3⟩ :=
            shape_soft cfg net r resp {} log hb (Or.inr ⟨obj, hdec, htok⟩)
          obtain ⟨_, _, c3⟩ := copyHeadersExceptContentLength_rest {} resp.Header
          obtain ⟨_, _, _, w4⟩ := WriteHeader_fresh
            (copyHeadersExceptContentLength {} resp.Header) resp.StatusCode (by simp [*])
          have he : LogEvent.branch e = none := by
            cases e with
            | sentEmpty p s => exact absurd rfl (q1 p s)
            | clearedCookie p c => exact absurd rfl (q2 p c)
            | proxied a b s => exact absurd rfl (q3 a b s)
            | _ => rfl
          rw [hl, hw, hs]
          refine ⟨?_, Or.inl (by rw [w4, c3])⟩
          simp [List.filterMap_append, hpre, he, LogEvent.branch]
        | some t =>
          have hs := shape_token cfg net r resp {} log obj t hb hdec htok
          obtain ⟨c1, _, c3⟩ :=
            copyHeadersExceptContentLength_rest (SetCookie {} (tokenCookie cfg t)) resp.Header
          obtain ⟨s1, _, s3⟩ := SetCookie_rest {} (tokenCookie cfg t)
          obtain ⟨_, _, _, w4⟩ := WriteHeader_fresh
            (copyHeadersExceptContentLength (SetCookie {} (tokenCookie cfg t)) resp.Header)
            resp.StatusCode (by rw [c1, s1])
          rw [hl, hw, hs]
          refine ⟨?_, Or.inr ⟨t, by rw [w4, c3, s3]; rfl⟩⟩
          simp [List.filterMap_append, hpre, LogEvent.branch]
    obtain ⟨hlog, hck⟩ := hcookies
    refine ⟨Branch.LoginShaped, hlog, ⟨fun _ => hb, fun _ => rfl⟩,
      ⟨fun h => Branch.noConfusion h, fun h => absurd hb h.1⟩, fun _ => hck,
      fun h => Branch.noConfusion h, fun h => Branch.noConfusion h, ?_, ?_, hne⟩
    · rcases hck with h | ⟨t, h⟩ <;> simp [h]
    · rcases hck with h | ⟨t, h⟩ <;> simp [h, tokenCookie]
  · by_cases hpath : r.URL.Path = cfg.logoutPath
    · have hs := shape_logout cfg net r resp {} log hb hpath
      obtain ⟨c1, _, c3⟩ := copyHeaders_rest {} resp.Header
      obtain ⟨s1, _, s3⟩ := SetCookie_rest (copyHeaders {} resp.Header) (clearingCookie cfg)
      obtain ⟨w1, _, _, w4⟩ := WriteHeader_fresh
        (SetCookie (copyHeaders {} resp.Header) (clearingCookie cfg)) resp.StatusCode
        (by rw [s1, c1])
      obtain ⟨_, _, _, b4⟩ := Write_after _ resp.Body resp.StatusCode w1
      have hck : (proxyHandler cfg net m r).w.cookiesSet = [clearingCookie cfg] := by
        rw [hw, hs, b4, w4, s3, c3]; rfl
      refine ⟨Branch.LogoutShaped, ?_, ⟨fun h => Branch.noConfusion h, fun h => absurd h hb⟩,
        ⟨fun _ => ⟨hb, hpath⟩, fun _ => rfl⟩, fun h => Branch.noConfusion h, fun _ => hck,
        fun h => Branch.noConfusion h, by simp [hck], by simp [hck, clearingCookie], hne⟩
      rw [hl, hs]
      simp [List.filterMap_append, hpre, LogEvent.branch]
    · have hs := shape_default cfg net r resp {} log hb hpath
      obtain ⟨c1, _, c3⟩ := copyHeaders_rest {} resp.Header
      obtain ⟨w1, _, _, w4⟩ := WriteHeader_fresh (copyHeaders {} resp.Header) resp.StatusCode
        (by rw [c1])
      obtain ⟨_, _, _, b4⟩ := Write_after _ resp.Body resp.StatusCode w1
      have hck : (proxyHandler cfg net m r).w.cookiesSet = [] := by
        rw [hw, hs, b4, w4, c3]
      refine ⟨Branch.Passthrough, ?_, ⟨fun h => Branch.noConfusion h, fun h => absurd h hb⟩,
        ⟨fun h => Branch.noConfusion h, fun h => absurd h.2 hpath⟩,
        fun h => Branch.noConfusion h, fun h => Branch.noConfusion h, fun _ => hck,
        by simp [hck], by simp [hck], hne⟩
      rw [hl, hs]
      simp [List.filterMap_append, hpre, LogEvent.branch]

/-- With the logout path equal to the login path, a JSON answer on that path completes the
login branch only and the proxy sets a single cookie. -/
theorem one_shaping_branch_witness :
    (proxyHandler sharedPathConfig (sampleNet (some loginAnswer)) (sampleHeap [])
        (sampleRequest "POST" "/login")).log.filterMap LogEvent.branch =
      [Branch.LoginShaped] ∧
    (proxyHandler sharedPathConfig (sampleNet (some loginAnswer)) (sampleHeap [])
        (sampleRequest "POST" "/login")).w.cookiesSet.length ≤ 1 := by
  obtain ⟨b, hlog, _, _, _, _, _, hlen, _⟩ := one_shaping_branch sharedPathConfig
    (sampleNet (some loginAnswer)) (sampleHeap []) (sampleRequest "POST" "/login") loginAnswer
    (by decide)
  exact ⟨by decide, hlen⟩


/-! ## The token comes back as a bearer token -/

theorem trimStart_id (l : List Char) (hh : ∀ c, l.head? = some c → isASCIISpace c = false) :
    trimStart l = l := by
  cases l with
  | nil => rfl
  | cons c cs =>
    unfold trimStart
    rw [hh c rfl]
    rfl

theorem TrimString_id (l : List Char) (hh : ∀ c, l.head? = some c → isASCIISpace c = false)
    (hl : ∀ d, l.getLast? = some d → isASCIISpace d = false) : TrimString l = l := by
  unfold TrimString
  rw [trimStart_id l hh, trimStart_id l.reverse (by rw [List.head?_reverse]; exact hl),
    List.reverse_reverse]

theorem splitAtChar_none (sep : Char) (l : List Char) (h : sep ∉ l) :
    splitAtChar sep l = [l] := by
  induction l with
  | nil => rfl
  | cons c cs ih =>
    have hc : c ≠ sep := fun e => h (e ▸ List.mem_cons_self _ _)
    have hcs : sep ∉ cs := fun e => h (List.mem_cons_of_mem _ e)
    unfold splitAtChar
    rw [if_neg hc, ih hcs]

theorem cutAt_append (sep : Char) (a b : List Char) (h : sep ∉ a) :
    cutAt sep (a ++ sep :: b) = (a, b) := by
  induction a with
  | nil => simp [cutAt]
  | cons c cs ih =>
    have hc : c ≠ sep := fun e => h (e ▸ List.mem_cons_self _ _)
    have hcs : sep ∉ cs := fun e => h (List.mem_cons_of_mem _ e)
    simp [cutAt, hc, ih hcs]

theorem token_not_space (c : Char) (h : isTokenChar c = true) : isASCIISpace c = false := by
  unfold isTokenChar at h
  unfold isASCIISpace
  simp only [Bool.or_eq_true, Bool.and_eq_true, decide_eq_true_eq] at h
  simp only [Bool.or_eq_false_iff, decide_eq_false_iff_not]
  omega

theorem token_ne (c : Char) (h : isTokenChar c = true) : c ≠ '=' ∧ c ≠ ';' := by
  constructor
  · intro e; subst e; revert h; decide
  · intro e; subst e; revert h; decide

theorem valid_byte (c : Char) (h : validCookieValueByte c = true) :
    c ≠ ';' ∧ c ≠ Char.ofNat 34 ∧ (c ≠ ' ' → isASCIISpace c = false) := by
  refine ⟨?_, ?_, ?_⟩
  · intro e; subst e; revert h; decide
  · intro e; subst e; revert h; decide
  · intro hne
    unfold validCookieValueByte at h
    unfold isASCIISpace
    simp only [Bool.and_eq_true, decide_eq_true_eq, bne_iff_ne, ne_eq] at h
    simp only [Bool.or_eq_false_iff, decide_eq_false_iff_not]
    have h32 : c.toNat ≠ 32 := by
      intro e
      apply hne
      apply Char.ext
      apply UInt32.ext
      exact e
    omega

theorem kept_valid (t : String) : ∀ c ∈ keptValueBytes t, validCookieValueByte c = true := by
  intro c hc
  unfold keptValueBytes at hc
  exact (List.mem_filter.mp hc).2

theorem sanitized_cases (t : String) :
    (keptValueBytes t = [] ∧ (sanitizeCookieValue t).data = []) ∨
    ((sanitizeCookieValue t).data = Char.ofNat 34 :: keptValueBytes t ++ [Char.ofNat 34]) ∨
    (keptValueBytes t ≠ [] ∧ (sanitizeCookieValue t).data = keptValueBytes t ∧
      ∀ c ∈ keptValueBytes t, c ≠ ' ') := by
  unfold sanitizeCookieValue
  by_cases he : keptValueBytes t = []
  · left
    rw [if_pos he]
    exact ⟨he, rfl⟩
  · rw [if_neg he]
    by_cases hany : (keptValueBytes t).any (fun c => c = ' ' || c = ',') = true
    · right; left
      rw [if_pos hany]
    · right; right
      rw [if_neg hany]
      refine ⟨he, rfl, ?_⟩
      intro c hc e
      apply hany
      rw [List.any_eq_true]
      exact ⟨c, hc, by simp [e]⟩

theorem parseCookieValue_sanitized (t : String) :
    parseCookieValue (sanitizeCookieValue t).data = some (keptValueBytes t) := by
  have hall : (keptValueBytes t).all validCookieValueByte = true := by
    rw [List.all_eq_true]
    exact kept_valid t
  rcases sanitized_cases t with ⟨hk, hd⟩ | hd | ⟨hk, hd, _⟩
  · rw [hd, hk]
    rfl
  · rw [hd]
    unfold parseCookieValue
    have hlast : (Char.ofNat 34 :: keptValueBytes t ++ [Char.ofNat 34]).getLast? =
        some (Char.ofNat 34) := by
      rw [List.getLast?_append]
      rfl
    have hlen : 1 < (Char.ofNat 34 :: keptValueBytes t ++ [Char.ofNat 34]).length := by
      simp
    have hcond : 1 < (Char.ofNat 34 :: keptValueBytes t ++ [Char.ofNat 34]).length ∧
        (Char.ofNat 34 :: keptValueBytes t ++ [Char.ofNat 34]).head? = some (Char.ofNat 34) ∧
        (Char.ofNat 34 :: keptValueBytes t ++ [Char.ofNat 34]).getLast? =
          some (Char.ofNat 34) := ⟨hlen, rfl, hlast⟩
    simp only [hcond, and_self, if_true]
    have hstrip : (List.drop 1 (Char.ofNat 34 :: keptValueBytes t ++ [Char.ofNat 34])).dropLast =
        keptValueBytes t := by
      simp [List.dropLast_concat]
    rw [hstrip, hall]
    rfl
  · rw [hd]
    unfold parseCookieValue
    have hhead : (keptValueBytes t).head? ≠ some (Char.ofNat 34) := by
      intro e
      have hmem : Char.ofNat 34 ∈ keptValueBytes t := by
        cases hkt : keptValueBytes t with
        | nil => rw [hkt] at e; exact Option.noConfusion e
        | cons c cs =>
          rw [hkt] at e
          simp only [List.head?_cons, Option.some.injEq] at e
          rw [e]
          exact List.mem_cons_self _ _
      exact (valid_byte _ (kept_valid t _ hmem)).2.1 rfl
    simp only [hhead, false_and, and_false, if_false]
    rw [hall]
    rfl

theorem sanitized_last (t : String) :
    ∀ d, (sanitizeCookieValue t).data.getLast? = some d → isASCIISpace d = false := by
  intro d hd
  rcases sanitized_cases t with ⟨_, h⟩ | h | ⟨_, h, hns⟩
  · rw [h] at hd
    exact Option.noConfusion hd
  · rw [h, List.getLast?_append] at hd
    have hd2 : some (Char.ofNat 34) = some d := hd
    cases hd2
    decide
  · rw [h] at hd
    have hmem : d ∈ keptValueBytes t := List.mem_of_getLast?_eq_some hd
    exact (valid_byte d (kept_valid t d hmem)).2.2 (hns d hmem)

theorem sanitized_no_semicolon (t : String) : ';' ∉ (sanitizeCookieValue t).data := by
  intro hmem
  have hk : ';' ∉ keptValueBytes t := fun h => (valid_byte _ (kept_valid t _ h)).1 rfl
  rcases sanitized_cases t with ⟨_, h⟩ | h | ⟨_, h, _⟩
  · rw [h] at hmem
    exact List.not_mem_nil _ hmem
  · rw [h] at hmem
    simp only [List.cons_append, List.mem_cons, List.mem_append, List.mem_singleton] at hmem
    rcases hmem with e | e | e
    · exact absurd e (by decide)
    · exact hk e
    · exact absurd e (by decide)
  · rw [h] at hmem
    exact hk hmem

theorem getLast?_append_cons (a : List Char) (x : Char) (b : List Char) :
    (a ++ x :: b).getLast? = (x :: b).getLast? := by
  induction a with
  | nil => rfl
  | cons c cs ih =>
    cases cs with
    | nil => exact List.getLast?_cons_cons
    | cons e es =>
      rw [List.cons_append, List.cons_append, List.getLast?_cons_cons]
      exact ih

theorem name_facts (name : String) (hv : isCookieNameValid name.data = true) :
    name.data ≠ [] ∧ ∀ c ∈ name.data, isTokenChar c = true := by
  unfold isCookieNameValid at hv
  simp only [Bool.and_eq_true, Bool.not_eq_true', List.isEmpty_eq_false, List.all_eq_true]
    at hv
  have hne : name.data ≠ [] := by
    intro e
    have := hv.1
    simp [e] at this
  exact ⟨hne, hv.2⟩

theorem readCookiePart_pair (name t : String) (hv : isCookieNameValid name.data = true) :
    readCookiePart name (name.data ++ '=' :: (sanitizeCookieValue t).data) =
      some { Name := name, Value := String.mk (keptValueBytes t) } := by
  obtain ⟨hne, htok⟩ := name_facts name hv
  have heq : '=' ∉ name.data := fun h => (token_ne _ (htok _ h)).1 rfl
  have hhead : ∀ c, (name.data ++ '=' :: (sanitizeCookieValue t).data).head? = some c →
      isASCIISpace c = false := by
    intro c hc
    cases hn : name.data with
    | nil => exact absurd hn hne
    | cons a as =>
      rw [hn] at hc
      simp only [List.cons_append, List.head?_cons, Option.some.injEq] at hc
      rw [← hc]
      exact token_not_space a (htok a (by rw [hn]; exact List.mem_cons_self _ _))
  have hlast : ∀ d, (name.data ++ '=' :: (sanitizeCookieValue t).data).getLast? = some d →
      isASCIISpace d = false := by
    intro d hd
    rw [getLast?_append_cons] at hd
    cases hsv : (sanitizeCookieValue t).data with
    | nil =>
      rw [hsv] at hd
      have hd2 : some '=' = some d := hd
      cases hd2
      decide
    | cons x xs =>
      rw [hsv, List.getLast?_cons_cons, ← hsv] at hd
      exact sanitized_last t d hd
  have hnamehead : ∀ c, name.data.head? = some c → isASCIISpace c = false := by
    intro c hc
    exact token_not_space c (htok c (List.mem_of_mem_head? hc))
  have hnamelast : ∀ d, name.data.getLast? = some d → isASCIISpace d = false := by
    intro d hd
    exact token_not_space d (htok d (List.mem_of_getLast?_eq_some hd))
  have hnonempty : name.data ++ '=' :: (sanitizeCookieValue t).data ≠ [] := by
    simp
  have hmk : String.mk name.data = name := rfl
  unfold readCookiePart
  simp only [TrimString_id _ hhead hlast, hnonempty, if_false, cutAt_append '=' _ _ heq,
    TrimString_id _ hnamehead hnamelast, hv, Bool.not_true, Bool.false_eq_true, hmk, ne_eq,
    not_true_eq_false, and_false, parseCookieValue_sanitized]

theorem Cookie_sent_back (m : Heap) (r : Request) (name t : String)
    (hv : isCookieNameValid name.data = true)
    (hsent : (m.read r.Header).values "Cookie" = [name ++ "=" ++ sanitizeCookieValue t]) :
    r.Cookie m name = some { Name := name, Value := String.mk (keptValueBytes t) } := by
  obtain ⟨hne, htok⟩ := name_facts name hv
  have hn : name ≠ "" := name_ne_empty name hv
  have hdata : (name ++ "=" ++ sanitizeCookieValue t).data =
      name.data ++ '=' :: (sanitizeCookieValue t).data := by
    simp [String.data_append]
  have hsemi : ';' ∉ name.data ++ '=' :: (sanitizeCookieValue t).data := by
    intro h
    rw [List.mem_append, List.mem_cons] at h
    rcases h with h | h | h
    · exact (token_ne _ (htok _ h)).2 rfl
    · exact absurd h (by decide)
    · exact sanitized_no_semicolon t h
  have hhead : ∀ c, (name.data ++ '=' :: (sanitizeCookieValue t).data).head? = some c →
      isASCIISpace c = false := by
    intro c hc
    cases hnd : name.data with
    | nil => exact absurd hnd hne
    | cons a as =>
      rw [hnd] at hc
      simp only [List.cons_append, List.head?_cons, Option.some.injEq] at hc
      rw [← hc]
      exact token_not_space a (htok a (by rw [hnd]; exact List.mem_cons_self _ _))
  have hlast : ∀ d, (name.data ++ '=' :: (sanitizeCookieValue t).data).getLast? = some d →
      isASCIISpace d = false := by
    intro d hd
    rw [getLast?_append_cons] at hd
    cases hsv : (sanitizeCookieValue t).data with
    | nil =>
      rw [hsv] at hd
      have hd2 : some '=' = some d := hd
      cases hd2
      decide
    | cons x xs =>
      rw [hsv, List.getLast?_cons_cons, ← hsv] at hd
      exact sanitized_last t d hd
  have hcount : cookieCount [name ++ "=" ++ sanitizeCookieValue t] = 1 := by
    unfold cookieCount
    simp only [List.map_cons, List.map_nil, List.sum_cons, List.sum_nil, hdata,
      List.count_eq_zero.mpr hsemi]
    rfl
  unfold Request.Cookie readCookies
  rw [if_neg hn, hsent, hcount, if_neg (by decide)]
  simp only [List.flatMap_cons, List.flatMap_nil, List.append_nil, hdata,
    TrimString_id _ hhead hlast, splitAtChar_none ';' _ hsemi, List.filterMap_cons,
    readCookiePart_pair name t hv, List.filterMap_nil, List.head?_cons]

theorem login_shape_line (cfg : Config) (net : Net) (m : Heap) (r : Request)
    (resp : Response) (obj : List (String × JSONValue)) (t : String)
    (hnew : net.newRequestFails r.Method (cfg.targetURL.ResolveReference r.URL) = false)
    (hdo : net.Do r.Method (cfg.targetURL.ResolveReference r.URL)
      (injected cfg m r (m.read r.Header)) r.Body = some resp)
    (hpath : r.URL.Path = cfg.loginPath ∨ r.URL.Path = cfg.refreshPath)
    (hct : net.ParseMediaType (resp.Header.Get "Content-Type") = some "application/json")
    (hdec : net.Decode resp.Body = some obj)
    (htok : obj.lookup cfg.accessTokenProperty = some (JSONValue.string t)) :
    isCookieNameValid cfg.cookieName.data = true →
      (proxyHandler cfg net m r).w.header.values "Set-Cookie" =
        (cfg.cookieName ++ "=" ++ sanitizeCookieValue t ++ "; Path=/" ++
          maxAgeAttr cfg.cookieMaxAge ++ "; HttpOnly" ++
          (if cfg.cookieSecure then "; Secure" else "") ++ sameSiteAttr cfg.cookieSameSite) ::
        resp.Header.values "Set-Cookie" := by
  have hresp := proxyHandler_do cfg net m r resp hnew hdo
  obtain ⟨log, hw, _, _⟩ := proxyHandler_resp cfg net m r resp hresp
  have htok2 : asString (obj.lookup cfg.accessTokenProperty) = some t := by rw [htok]; rfl
  rw [hw, shape_token cfg net r resp {} log obj t ⟨hpath, hct⟩ hdec htok2]
  obtain ⟨c1, _, _⟩ :=
    copyHeadersExceptContentLength_rest (SetCookie {} (tokenCookie cfg t)) resp.Header
  obtain ⟨s1, _, _⟩ := SetCookie_rest {} (tokenCookie cfg t)
  obtain ⟨_, w2, _, _⟩ := WriteHeader_fresh
    (copyHeadersExceptContentLength (SetCookie {} (tokenCookie cfg t)) resp.Header)
    resp.StatusCode (by rw [c1, s1])
  intro hv
  have hne := Cookie_String_ne_empty (tokenCookie cfg t) hv
  rw [w2, copyHeadersExceptContentLength_header, SetCookie_header,
    ← tokenCookie_String cfg t hv]
  simp [Header.values, hne]

theorem status_of_resp (cfg : Config) (net : Net) (m : Heap) (r : Request) (resp : Response)
    (hresp : (proxyHandler cfg net m r).resp = some resp) :
    (proxyHandler cfg net m r).w.status = some resp.StatusCode := by
  obtain ⟨log, hw, _, _⟩ := proxyHandler_resp cfg net m r resp hresp
  rw [hw]
  by_cases hb : isTokenResponse cfg net r resp
  · cases hdec : net.Decode resp.Body with
    | none =>
      obtain ⟨e, hs, _⟩ := shape_soft cfg net r resp {} log hb (Or.inl hdec)
      obtain ⟨c1, _, _⟩ := copyHeadersExceptContentLength_rest {} resp.Header
      rw [hs]
      exact (WriteHeader_fresh _ resp.StatusCode (by rw [c1])).1
    | some obj =>
      cases htok : asString (obj.lookup cfg.accessTokenProperty) with
      | none =>
        obtain ⟨e, hs, _⟩ := shape_soft cfg net r resp {} log hb (Or.inr ⟨obj, hdec, htok⟩)
        obtain ⟨c1, _, _⟩ := copyHeadersExceptContentLength_rest {} resp.Header
        rw [hs]
        exact (WriteHeader_fresh _ resp.StatusCode (by rw [c1])).1
      | some t =>
        obtain ⟨c1, _, _⟩ :=
          copyHeadersExceptContentLength_rest (SetCookie {} (tokenCookie cfg t)) resp.Header
        obtain ⟨s1, _, _⟩ := SetCookie_rest {} (tokenCookie cfg t)
        rw [shape_token cfg net r resp {} log obj t hb hdec htok]
        exact (WriteHeader_fresh _ resp.StatusCode (by rw [c1, s1])).1
  · by_cases hpath : r.URL.Path = cfg.logoutPath
    · obtain ⟨c1, _, _⟩ := copyHeaders_rest {} resp.Header
      obtain ⟨s1, _, _⟩ := SetCookie_rest (copyHeaders {} resp.Header) (clearingCookie cfg)
      obtain ⟨w1, _⟩ := WriteHeader_fresh
        (SetCookie (copyHeaders {} resp.Header) (clearingCookie cfg)) resp.StatusCode
        (by rw [s1, c1])
      rw [shape_logout cfg net r resp {} log hb hpath]
      exact (Write_after _ resp.Body resp.StatusCode w1).1
    · obtain ⟨c1, _, _⟩ := copyHeaders_rest {} resp.Header
      obtain ⟨w1, _⟩ := WriteHeader_fresh (copyHeaders {} resp.Header) resp.StatusCode
        (by rw [c1])
      rw [shape_default cfg net r resp {} log hb hpath]
      exact (Write_after _ resp.Body resp.StatusCode w1).1

/-- C10, as stated, fails: the token `a;b` of the sample login reaches the client as the cookie
value `ab`, and the later request that sends `tok=ab` back is forwarded with `Bearer ab`, not
`Bearer a;b`: the upstream that answers 200 only to `Authorization: Bearer ab` answers 200. -/
theorem token_round_trip_counterexample :
    (sampleNet (some oddTokenAnswer)).Decode oddTokenAnswer.Body =
      some [("accessToken", JSONValue.string "a;b")] ∧
    (proxyHandler sampleConfig (sampleNet (some oddTokenAnswer)) (sampleHeap [])
        (sampleRequest "POST" "/login")).w.header.values "Set-Cookie" =
      ["tok=ab; Path=/; Max-Age=3600; HttpOnly; Secure; SameSite=Strict"] ∧
    ((proxyHandler sampleConfig (bearerNet otherAnswer plainAnswer) (sampleHeap ["tok=ab"])
        (sampleRequest "GET" "/api")).heap.read 1).values "Authorization" = ["Bearer ab"] ∧
    ["Bearer ab"] ≠ ["Bearer " ++ "a;b"] ∧
    otherAnswer.StatusCode = 200 ∧ plainAnswer.StatusCode = 404 ∧
    (proxyHandler sampleConfig (bearerNet otherAnswer plainAnswer) (sampleHeap ["tok=ab"])
        (sampleRequest "GET" "/api")).w.status = some 200 := by
  refine ⟨by rfl, by decide, by decide, by decide, by decide, by decide, by decide⟩

/-- C10, amended: with a valid configured cookie name, when a login or refresh answer yields
the token string `t`, the proxy writes a Set-Cookie line for that name whose value is `t`
without the bytes that are invalid in a cookie value (also when nothing is left). A later
request for which `r.Cookie` returns the cookie of that name and value, as it does for a
request whose Cookie header is the `name=value` pair of that line, is built with the
Authorization header exactly `"Bearer "` followed by that value when the value is not empty,
and this is the request `Do` receives: whatever `Do` answers to it is the response the client
gets the status of. When the value is empty the inbound header map is handed to `Do` unchanged.
The value is `t` itself when every byte of `t` is a valid cookie-value byte. -/
theorem token_round_trip (cfg : Config) (net : Net) (m : Heap) (r : Request) (resp : Response)
    (obj : List (String × JSONValue)) (t : String)
    (net2 : Net) (m2 : Heap) (r2 : Request)
    (hnew : net.newRequestFails r.Method (cfg.targetURL.ResolveReference r.URL) = false)
    (hdo : net.Do r.Method (cfg.targetURL.ResolveReference r.URL)
      (injected cfg m r (m.read r.Header)) r.Body = some resp)
    (hpath : r.URL.Path = cfg.loginPath ∨ r.URL.Path = cfg.refreshPath)
    (hct : net.ParseMediaType (resp.Header.Get "Content-Type") = some "application/json")
    (hdec : net.Decode resp.Body = some obj)
    (htok : obj.lookup cfg.accessTokenProperty = some (JSONValue.string t))
    (hname : isCookieNameValid cfg.cookieName.data = true)
    (hnew2 : net2.newRequestFails r2.Method (cfg.targetURL.ResolveReference r2.URL) = false)
    (hback : r2.Cookie m2 cfg.cookieName =
      some { Name := cfg.cookieName, Value := String.mk (keptValueBytes t) }) :
    (proxyHandler cfg net m r).w.header.values "Set-Cookie" =
      (cfg.cookieName ++ "=" ++ sanitizeCookieValue t ++ "; Path=/" ++
        maxAgeAttr cfg.cookieMaxAge ++ "; HttpOnly" ++
        (if cfg.cookieSecure then "; Secure" else "") ++ sameSiteAttr cfg.cookieSameSite) ::
      resp.Header.values "Set-Cookie" ∧
    (∀ (m3 : Heap) (r3 : Request), (m3.read r3.Header).values "Cookie" =
        [cfg.cookieName ++ "=" ++ sanitizeCookieValue t] →
      r3.Cookie m3 cfg.cookieName =
        some { Name := cfg.cookieName, Value := String.mk (keptValueBytes t) }) ∧
    (∃ q, (proxyHandler cfg net2 m2 r2).req = some q ∧
      (keptValueBytes t ≠ [] →
        ((proxyHandler cfg net2 m2 r2).heap.read q.Header).values "Authorization" =
          ["Bearer " ++ String.mk (keptValueBytes t)]) ∧
      (keptValueBytes t = [] →
        (proxyHandler cfg net2 m2 r2).heap.read q.Header = m2.read r2.Header)) ∧
    (keptValueBytes t ≠ [] → ∀ resp2,
      net2.Do r2.Method (cfg.targetURL.ResolveReference r2.URL)
        ((m2.read r2.Header).Set "Authorization" ("Bearer " ++ String.mk (keptValueBytes t)))
        r2.Body = some resp2 →
      (proxyHandler cfg net2 m2 r2).resp = some resp2 ∧
      (proxyHandler cfg net2 m2 r2).w.status = some resp2.StatusCode) ∧
    (keptValueBytes t = [] → ∀ resp2,
      net2.Do r2.Method (cfg.targetURL.ResolveReference r2.URL) (m2.read r2.Header)
        r2.Body = some resp2 →
      (proxyHandler cfg net2 m2 r2).resp = some resp2 ∧
      (proxyHandler cfg net2 m2 r2).w.status = some resp2.StatusCode) ∧
    ((∀ c ∈ t.data, validCookieValueByte c = true) → String.mk (keptValueBytes t) = t) := by
  have hline := (login_shape_line cfg net m r resp obj t hnew hdo hpath hct hdec htok) hname
  obtain ⟨hq, hheap⟩ := proxyHandler_req cfg net2 m2 r2 hnew2
  have hb := buildHeader_new cfg m2 r2 [LogEvent.inbound r2.Method r2.URL.Path]
  rw [buildHeader_ref] at hb
  have hmk : ∀ l : List Char, String.mk l = "" ↔ l = [] := by
    intro l
    constructor
    · intro h; exact congrArg String.data h
    · intro h; rw [h]
  have hinj1 : keptValueBytes t ≠ [] →
      injected cfg m2 r2 (m2.read r2.Header) =
        (m2.read r2.Header).Set "Authorization" ("Bearer " ++ String.mk (keptValueBytes t)) := by
    intro hk
    have hv : String.mk (keptValueBytes t) ≠ "" := fun h => hk ((hmk _).mp h)
    simp [injected, hback, hv]
  have hinj0 : keptValueBytes t = [] →
      injected cfg m2 r2 (m2.read r2.Header) = m2.read r2.Header := by
    intro hk
    have hv : String.mk (keptValueBytes t) = "" := (hmk _).mpr hk
    simp [injected, hback, hv]
  refine ⟨hline, fun m3 r3 hsent => Cookie_sent_back m3 r3 cfg.cookieName t hname hsent,
    ⟨_, hq, ?_, ?_⟩, ?_, ?_, ?_⟩
  · intro hk
    rw [hheap, hb, hinj1 hk]
    simp [values_Set]
  · intro hk
    rw [hheap, hb, hinj0 hk]
  · intro hk resp2 hdo2
    rw [← hinj1 hk] at hdo2
    have hresp2 := proxyHandler_do cfg net2 m2 r2 resp2 hnew2 hdo2
    exact ⟨hresp2, status_of_resp cfg net2 m2 r2 resp2 hresp2⟩
  · intro hk resp2 hdo2
    rw [← hinj0 hk] at hdo2
    have hresp2 := proxyHandler_do cfg net2 m2 r2 resp2 hnew2 hdo2
    exact ⟨hresp2, status_of_resp cfg net2 m2 r2 resp2 hresp2⟩
  · intro hall
    have hk : keptValueBytes t = t.data := filter_eq_self_of_all _ _ hall
    rw [hk]

/-- The token `a;b` of the sample login comes back as `Bearer ab`, which the upstream that
answers 200 only to that header receives. -/
theorem token_round_trip_witness :
    (proxyHandler sampleConfig (bearerNet otherAnswer plainAnswer) (sampleHeap ["tok=ab"])
        (sampleRequest "GET" "/api")).w.status = some 200 := by
  have h := token_round_trip sampleConfig (sampleNet (some oddTokenAnswer)) (sampleHeap [])
    (sampleRequest "POST" "/login") oddTokenAnswer
    [("accessToken", JSONValue.string "a;b")] "a;b"
    (bearerNet otherAnswer plainAnswer) (sampleHeap ["tok=ab"]) (sampleRequest "GET" "/api")
    (by decide) (by decide) (by decide) (by decide) (by rfl) (by rfl) (by decide) (by decide)
    (by decide)
  exact (h.2.2.2.1 (by decide) otherAnswer (by decide)).2

end CookieBearer
